import Mathlib

/-!
Verification development for the SIARD-to-SQLite converter
(`siard_converter.py`).  The Python source is shallowly embedded:

* XML documents are the inductive `XElem` (namespace URI, local tag,
  value of the `xsi:nil` attribute, text content, child elements) —
  lxml's Clark notation tag `.../ns-uri.../local` is split into the
  `ns`/`tag` fields;
* the descriptor dictionaries produced by the metadata model builder
  become the structures `ColumnInfo`, `FKInfo`, `TableInfo`, `ViewInfo`,
  `SchemaInfo`;
* Python string operations (`strip`, `int()`, `float()`, `lower`,
  `upper`, the handful of concrete regular expressions of
  `_convert_query_to_sqlite`) are modelled by executable functions over
  `List Char`; only their behaviour on ASCII input is relevant to the
  embedded code paths (all literals compared against are ASCII).

Every definition is translated from the source file; the doc comment of
each definition names the Python function it embeds.
-/

/-! ### Python string primitives -/

/-- Characters treated as whitespace by Python's `str.strip()` (ASCII range). -/
def pyIsSpace (c : Char) : Bool :=
  c = ' ' || c = '\t' || c = '\n' || c = '\r' || c = '\x0b' || c = '\x0c'

/-- Model of Python `str.strip()` on a character list. -/
def pyStripList (l : List Char) : List Char :=
  ((l.dropWhile pyIsSpace).reverse.dropWhile pyIsSpace).reverse

/-- Model of Python `str.strip()`. -/
def pyStrip (s : String) : String :=
  String.mk (pyStripList s.data)

/-- Model of Python `str.rstrip(';')`: remove every trailing semicolon. -/
def pyRStripSemi (s : String) : String :=
  String.mk ((s.data.reverse.dropWhile (· = ';')).reverse)

/-- Model of Python `str.lower()` (ASCII). -/
def asciiLower (s : String) : String :=
  String.mk (s.data.map Char.toLower)

/-- Model of Python `str.upper()` (ASCII). -/
def asciiUpper (s : String) : String :=
  String.mk (s.data.map Char.toUpper)

/-- Word character in the sense of Python's regex `\w` (ASCII range):
letters, digits and the underscore. -/
def isWordChar (c : Char) : Bool :=
  c.isAlpha || c.isDigit || c = '_'

/-- Digit run with optional single underscores between digits, as accepted
inside Python numeric literals by `int()` / `float()`; accumulates the value.
Having consumed at least one digit, `acc` is the value so far. -/
def digitsUAux (acc : Nat) : List Char → Option Nat
  | [] => some acc
  | '_' :: rest =>
    match rest with
    | [] => none
    | c :: rest2 =>
      if c.isDigit then digitsUAux (acc * 10 + (c.toNat - 48)) rest2 else none
  | c :: rest =>
    if c.isDigit then digitsUAux (acc * 10 + (c.toNat - 48)) rest else some acc

/-- Unsigned decimal literal with Python underscore rules; `none` when the
list does not consist exactly of such a literal. This consumes the whole
list (used by `int()`). -/
def digitsUAll : List Char → Option Nat
  | [] => none
  | c :: rest =>
    if c.isDigit then
      match digitsUAux (c.toNat - 48) rest with
      | some n => some n
      | none => none
    else none

/-- When `digitsUAll` accepts, it accepts the whole list; a variant that
consumes a maximal valid digit run and returns the rest (used by the
`float()` grammar). Returns `none` when no digit starts the list or an
underscore is misplaced. -/
def digitRunAux : List Char → Option (List Char)
  | [] => some []
  | '_' :: rest =>
    match rest with
    | [] => none
    | c :: rest2 => if c.isDigit then digitRunAux rest2 else none
  | c :: rest => if c.isDigit then digitRunAux rest else some (c :: rest)

/-- Consume a digit run (Python underscore rules) from the front; `none`
when the list does not start with a digit or underscores are misplaced. -/
def digitRun : List Char → Option (List Char)
  | [] => none
  | c :: rest => if c.isDigit then digitRunAux rest else none

/-- Model of Python `int(s)` on an already-stripped string: optional sign
followed by a decimal literal (underscore rules included). -/
def pyIntParse (s : String) : Option Int :=
  match s.data with
  | '+' :: rest => (digitsUAll rest).map (fun n => (n : Int))
  | '-' :: rest => (digitsUAll rest).map (fun n => -(n : Int))
  | l => (digitsUAll l).map (fun n => (n : Int))

/-- Exponent part of a Python float literal after the `e`/`E`:
optional sign then digits, consuming the whole rest. -/
def floatExpDigits : List Char → Bool
  | '+' :: rest => digitRun rest == some []
  | '-' :: rest => digitRun rest == some []
  | l => digitRun l == some []

/-- Optional exponent: what may legally follow the mantissa of a Python
float literal. -/
def floatAfterMantissa : List Char → Bool
  | [] => true
  | c :: rest => if c = 'e' || c = 'E' then floatExpDigits rest else false

/-- Mantissa of a Python float literal: `digits [. [digits]]` or
`. digits`; returns the unconsumed rest on success. -/
def floatMantissa (l : List Char) : Option (List Char) :=
  match l with
  | '.' :: r => digitRun r
  | _ =>
    match digitRun l with
    | some ('.' :: r) =>
      match digitRun r with
      | some rest2 => some rest2
      | none => some r
    | some rest => some rest
    | none => none

/-- Model of "Python `float(s)` succeeds" for an already-stripped string:
optional sign, then `inf`/`infinity`/`nan` (case-insensitive) or a
decimal mantissa with optional exponent. -/
def pyFloatOk (s : String) : Bool :=
  let body : List Char → Bool := fun l =>
    let low := String.mk (l.map Char.toLower)
    if low = "inf" || low = "infinity" || low = "nan" then true
    else
      match floatMantissa l with
      | some rest => floatAfterMantissa rest
      | none => false
  match s.data with
  | '+' :: rest => body rest
  | '-' :: rest => body rest
  | l => body l

/-! ### Name Sanitizer (`_sanitize_name`) -/

/-- The character substitution `re.sub(r'[^\w]', '_', name)` of
`_sanitize_name`. -/
def sanitizeSub (l : List Char) : List Char :=
  l.map (fun c => if isWordChar c then c else '_')

/-- The digit guard of `_sanitize_name`: prefix `col_` when the
substituted name starts with a digit. -/
def sanitizeCore (l : List Char) : List Char :=
  if !(sanitizeSub l).isEmpty && ((sanitizeSub l).headD ' ').isDigit then
    'c' :: 'o' :: 'l' :: '_' :: sanitizeSub l
  else sanitizeSub l

/-- The `or "unnamed"` fallback of `_sanitize_name`. -/
def sanitizeList (l : List Char) : List Char :=
  if (sanitizeCore l).isEmpty then "unnamed".data else sanitizeCore l

/-- Model of `SiardToSqlite._sanitize_name`. -/
def sanitizeName (name : String) : String :=
  String.mk (sanitizeList name.data)

/-- Whether a string starts with an ASCII digit (the Python guard
`s[0].isdigit()` applied to a possibly-empty string, `' '` standing for
the absent first character). -/
def startsWithDigit (s : String) : Bool :=
  (s.data.headD ' ').isDigit

theorem mem_sanitizeSub_word (l : List Char) (c : Char)
    (h : c ∈ sanitizeSub l) : isWordChar c = true := by
  rcases List.mem_map.mp h with ⟨a, _, rfl⟩
  by_cases hw : isWordChar a = true
  · rw [if_pos hw]; exact hw
  · rw [if_neg hw]; decide

theorem sanitizeSub_of_word (l : List Char)
    (h : ∀ c ∈ l, isWordChar c = true) : sanitizeSub l = l := by
  induction l with
  | nil => rfl
  | cons c cs ih =>
    have hc := h c (by simp)
    rw [sanitizeSub, List.map_cons, if_pos hc]
    have := ih (fun d hd => h d (by simp [hd]))
    rw [sanitizeSub] at this
    rw [this]

theorem isDigit_isWordChar (c : Char) (h : c.isDigit = true) :
    isWordChar c = true := by
  simp [isWordChar, h]

theorem mem_sanitizeCore_word (l : List Char) (c : Char)
    (h : c ∈ sanitizeCore l) : isWordChar c = true := by
  rw [sanitizeCore] at h
  by_cases hc : !(sanitizeSub l).isEmpty && ((sanitizeSub l).headD ' ').isDigit
  · rw [if_pos hc] at h
    simp only [List.mem_cons] at h
    rcases h with rfl | rfl | rfl | rfl | h5
    · decide
    · decide
    · decide
    · decide
    · exact mem_sanitizeSub_word l c h5
  · rw [if_neg hc] at h
    exact mem_sanitizeSub_word l c h

theorem mem_sanitizeList_word (l : List Char) (c : Char)
    (h : c ∈ sanitizeList l) : isWordChar c = true := by
  rw [sanitizeList] at h
  by_cases hc : (sanitizeCore l).isEmpty = true
  · rw [if_pos hc] at h
    revert h
    have : ∀ d ∈ ("unnamed".data), isWordChar d = true := by decide
    exact this c
  · rw [if_neg hc] at h
    exact mem_sanitizeCore_word l c h

theorem sanitizeCore_head_not_digit (l : List Char) :
    ((sanitizeCore l).headD ' ').isDigit = false := by
  rw [sanitizeCore]
  by_cases hc : !(sanitizeSub l).isEmpty && ((sanitizeSub l).headD ' ').isDigit
  · rw [if_pos hc]
    simp only [List.headD_cons]
    decide
  · rw [if_neg hc]
    cases hs : sanitizeSub l with
    | nil => decide
    | cons a as =>
      rw [hs] at hc
      simp only [List.isEmpty_cons, Bool.not_false, Bool.true_and] at hc
      simp only [List.headD_cons]
      exact Bool.not_eq_true _ |>.mp hc

theorem sanitizeList_head_not_digit (l : List Char) :
    ((sanitizeList l).headD ' ').isDigit = false := by
  rw [sanitizeList]
  by_cases hc : (sanitizeCore l).isEmpty = true
  · rw [if_pos hc]; decide
  · rw [if_neg hc]
    exact sanitizeCore_head_not_digit l

theorem sanitizeList_ne_nil (l : List Char) : sanitizeList l ≠ [] := by
  rw [sanitizeList]
  by_cases hc : (sanitizeCore l).isEmpty = true
  · rw [if_pos hc]; decide
  · rw [if_neg hc]
    intro h
    exact hc (by simp [h])

theorem sanitizeList_fixed (l : List Char)
    (hw : ∀ c ∈ l, isWordChar c = true)
    (hne : l ≠ [])
    (hd : (l.headD ' ').isDigit = false) :
    sanitizeList l = l := by
  have hsub : sanitizeSub l = l := sanitizeSub_of_word l hw
  have hcore : sanitizeCore l = l := by
    rw [sanitizeCore, hsub, hd]
    simp
  rw [sanitizeList, hcore]
  simp [hne]

theorem sanitizeList_idem (l : List Char) :
    sanitizeList (sanitizeList l) = sanitizeList l :=
  sanitizeList_fixed _ (mem_sanitizeList_word l) (sanitizeList_ne_nil l)
    (sanitizeList_head_not_digit l)

/-- C8: the Name Sanitizer is idempotent, its output never starts with a
digit, and the empty name maps to the literal `unnamed`.  (`sanitize` is
`_sanitize_name`; Python's `\w` and `isdigit` are modelled on the ASCII
range.) -/
theorem C8_sanitize_idempotent_no_digit_unnamed (x : String) :
    sanitizeName (sanitizeName x) = sanitizeName x ∧
    startsWithDigit (sanitizeName x) = false ∧
    sanitizeName "" = "unnamed" := by
  refine ⟨?_, ?_, by decide⟩
  · show String.mk (sanitizeList (sanitizeList x.data)) = _
    rw [sanitizeList_idem]
    rfl
  · show ((sanitizeList x.data).headD ' ').isDigit = false
    exact sanitizeList_head_not_digit x.data

/-! ### XML document model

lxml elements are modelled by `XElem`.  An element's Clark-notation tag
`\x7bns-uri\x7dlocal` is split into `ns = some ns-uri` and `tag = local`;
an element without a namespace has `ns = none`.  `nilAttr` is the value
of the `xsi:nil` attribute (the only attribute the converter reads) and
`text` is the element's text content (`None` in Python becomes `none`).
-/

inductive XElem : Type
  | mk (ns : Option String) (tag : String) (nilAttr : Option String)
       (text : Option String) (children : List XElem)

def XElem.ns : XElem → Option String
  | .mk n _ _ _ _ => n

def XElem.tag : XElem → String
  | .mk _ t _ _ _ => t

def XElem.nilAttr : XElem → Option String
  | .mk _ _ a _ _ => a

def XElem.text : XElem → Option String
  | .mk _ _ _ t _ => t

def XElem.children : XElem → List XElem
  | .mk _ _ _ _ c => c

mutual

/-- Decorate a whole tree with a namespace URI: the same document written
with a (default or prefixed) namespace instead of no namespace. -/
def withNs (u : String) : XElem → XElem
  | .mk _ tag nilA tx ch => .mk (some u) tag nilA tx (withNsList u ch)

def withNsList (u : String) : List XElem → List XElem
  | [] => []
  | e :: es => withNs u e :: withNsList u es

end

mutual

/-- All proper descendants of an element in document (pre-)order: what an
XPath `.//x` step ranges over. -/
def descendants : XElem → List XElem
  | .mk _ _ _ _ ch => descList ch

def descList : List XElem → List XElem
  | [] => []
  | e :: es => e :: (descendants e ++ descList es)

end

mutual

/-- All elements of a subtree in the order in which `etree.iterparse`
delivers their `end` events (children before their parent). -/
def postorder : XElem → List XElem
  | .mk ns tag nilA tx ch => postList ch ++ [.mk ns tag nilA tx ch]

def postList : List XElem → List XElem
  | [] => []
  | e :: es => postorder e ++ postList es

end

/-! ### Descriptor structures (the dictionaries built by the metadata
model builder) -/

/-- The dictionary returned by `_parse_column`. -/
structure ColumnInfo where
  name : String
  type : String
  nullable : Bool
  original_type : String
deriving DecidableEq, Repr

/-- The dictionary returned by `_parse_foreign_key`. -/
structure FKInfo where
  name : Option String
  referenced_table : String
  referenced_schema : Option String
  source_columns : List String
  target_columns : List String
deriving DecidableEq, Repr

/-- The dictionary returned by `_parse_table`. -/
structure TableInfo where
  name : String
  columns : List ColumnInfo
  primary_key : List String
  foreign_keys : List FKInfo
  table_index : Nat
deriving DecidableEq, Repr

/-- The dictionary returned by `_parse_view`. -/
structure ViewInfo where
  name : String
  query : Option String
  description : Option String
  columns : List ColumnInfo
deriving DecidableEq, Repr

/-- The dictionary returned by `_parse_schema`. -/
structure SchemaInfo where
  name : String
  folder : String
  tables : List TableInfo
  views : List ViewInfo
deriving DecidableEq, Repr

/-! ### Value coercion and the two import strategies -/

/-- A value bound into an INSERT: Python `None` / `int` / `float` / `str`.
`real txt` stands for the Python float `float(txt)` (the parsed text is
kept; no floating-point arithmetic is ever performed on it). -/
inductive SqlValue
  | null
  | int (i : Int)
  | real (txt : String)
  | text (s : String)
deriving DecidableEq, Repr

/-- Per-value coercion shared verbatim by `_import_table_data`
(lines 744-776) and `_import_table_data_streaming` (lines 838-869): the
two code blocks are textually identical, so a single definition embeds
both.  `colElem` is the located `c<i>` element (`none` when absent). -/
def coerceValue (col : ColumnInfo) (colElem : Option XElem) : SqlValue :=
  match colElem with
  | none => SqlValue.null
  | some el =>
    if el.nilAttr = some "true" then SqlValue.null
    else
      match el.text with
      | none => SqlValue.null
      | some t =>
        let v := pyStrip t
        if col.type = "INTEGER" then
          if asciiUpper col.original_type = "BOOLEAN" then
            if asciiLower v = "true" || asciiLower v = "1" then SqlValue.int 1
            else if asciiLower v = "false" || asciiLower v = "0" then SqlValue.int 0
            else SqlValue.int 0
          else if v ≠ "" then
            match pyIntParse v with
            | some n => SqlValue.int n
            | none => SqlValue.null
          else SqlValue.text v
        else if col.type = "REAL" && v ≠ "" then
          if pyFloatOk v then SqlValue.real v else SqlValue.null
        else SqlValue.text v

/-- Whole-document strategy, column lookup for position `i` (0-based):
`row_elem.xpath('*[local-name()="c<i+1>"]')`, first hit. -/
def findColWholeDoc (row : XElem) (i : Nat) : Option XElem :=
  (row.children.filter (fun c => c.tag == "c" ++ toString (i + 1))).head?

/-- Streaming strategy, column lookup for position `i` (0-based):
first child whose Clark tag ends in `\x7dc<i+1>`, i.e. a namespaced
element with local name `c<i+1>`. -/
def findColStreaming (row : XElem) (i : Nat) : Option XElem :=
  row.children.find? (fun c => c.ns.isSome && c.tag == "c" ++ toString (i + 1))

/-- One row of the whole-document strategy (`row_data` list). -/
def extractRowWholeDoc (cols : List ColumnInfo) (row : XElem) : List SqlValue :=
  cols.enum.map (fun p => coerceValue p.2 (findColWholeDoc row p.1))

/-- One row of the streaming strategy (`row_data` list). -/
def extractRowStreaming (cols : List ColumnInfo) (row : XElem) : List SqlValue :=
  cols.enum.map (fun p => coerceValue p.2 (findColStreaming row p.1))

/-- Rows located by the whole-document strategy:
`root.xpath('.//*[local-name()="row"]')` — namespace-agnostic. -/
def wholeDocRows (root : XElem) : List XElem :=
  (descendants root).filter (fun e => e.tag == "row")

/-- Rows located by the streaming strategy: `end` events (in stream
order, the first `start` event of the root having been consumed) whose
tag satisfies `tag.endswith('\x7drow')`, i.e. namespaced elements with
local name `row`. -/
def streamingRows (root : XElem) : List XElem :=
  (postorder root).filter (fun e => e.ns.isSome && e.tag == "row")

/-- Sequence of rows inserted by `_import_table_data` (each located row
is coerced positionally against the descriptor's column list and
inserted individually; the database is assumed to accept every row). -/
def importTableData (cols : List ColumnInfo) (root : XElem) : List (List SqlValue) :=
  (wholeDocRows root).map (extractRowWholeDoc cols)

/-- The batch accumulation of `_import_table_data_streaming`: rows are
appended to `batch_data` and flushed by `executemany` whenever the batch
reaches `bs` (`BATCH_SIZE`); a final partial batch is flushed at the
end. -/
def flushBatches (bs : Nat) : List (List SqlValue) → List (List SqlValue) →
    List (List (List SqlValue))
  | batch, [] => if batch.isEmpty then [] else [batch]
  | batch, r :: rs =>
    if bs ≤ (batch ++ [r]).length then (batch ++ [r]) :: flushBatches bs [] rs
    else flushBatches bs (batch ++ [r]) rs

/-- Sequence of rows inserted by `_import_table_data_streaming` (the
concatenation of the flushed batches; every `executemany` is assumed to
succeed). -/
def importTableDataStreaming (bs : Nat) (cols : List ColumnInfo) (root : XElem) :
    List (List SqlValue) :=
  (flushBatches bs [] ((streamingRows root).map (extractRowStreaming cols))).flatten


/-! ### C1: whole-document versus streaming import -/

/-- No element strictly below `e` has local name `row`. -/
def noRowBelow (e : XElem) : Bool :=
  (descendants e).all (fun d => d.tag != "row")

/-- A well-shaped namespaced row element: local name `row`, carries a
namespace, its value children carry namespaces, and no nested `row`
elements. -/
def goodRowElem (r : XElem) : Bool :=
  r.tag == "row" && r.ns.isSome && r.children.all (fun c => c.ns.isSome) && noRowBelow r

/-- A well-shaped namespaced row-data document: the root is not itself a
`row` and every direct child is a well-shaped namespaced row. -/
def goodRowDoc (root : XElem) : Bool :=
  root.tag != "row" && root.children.all goodRowElem

theorem flushBatches_flatten (bs : Nat) (batch : List (List SqlValue))
    (rows : List (List SqlValue)) :
    (flushBatches bs batch rows).flatten = batch ++ rows := by
  induction rows generalizing batch with
  | nil =>
    by_cases h : batch.isEmpty
    · rw [flushBatches, if_pos h, List.isEmpty_iff.mp h]
      rfl
    · rw [flushBatches, if_neg h]
      simp
  | cons r rs ih =>
    rw [flushBatches]
    by_cases h : bs ≤ (batch ++ [r]).length
    · rw [if_pos h, List.flatten_cons, ih []]
      simp
    · rw [if_neg h, ih (batch ++ [r])]
      simp

mutual

theorem mem_postorder (x e : XElem) :
    x ∈ postorder e ↔ x = e ∨ x ∈ descendants e := by
  cases e with
  | mk ns tag nilA tx ch =>
    rw [postorder, descendants]
    simp only [List.mem_append, List.mem_singleton, mem_postList x ch]
    tauto

theorem mem_postList (x : XElem) (l : List XElem) :
    x ∈ postList l ↔ x ∈ descList l := by
  cases l with
  | nil => rw [postList, descList]
  | cons e es =>
    rw [postList, descList]
    simp only [List.mem_append, List.mem_cons, mem_postorder x e, mem_postList x es]
    tauto

end

theorem tag_false_of_noRow (r : XElem) (hnr : noRowBelow r = true)
    (a : XElem) (ha : a ∈ descendants r) : (a.tag == "row") = false := by
  rw [noRowBelow] at hnr
  have hall := List.all_eq_true.mp hnr a ha
  cases hb : a.tag == "row"
  · rfl
  · rw [bne, hb] at hall
    exact absurd hall (by decide)

theorem filter_descList_no_row (l : List XElem)
    (h : ∀ e ∈ l, goodRowElem e = true) :
    (descList l).filter (fun e => e.tag == "row") = l := by
  induction l with
  | nil => rfl
  | cons r rs ih =>
    have hr := h r (by simp)
    rw [goodRowElem] at hr
    simp only [Bool.and_eq_true] at hr
    obtain ⟨⟨⟨htag, _⟩, _⟩, hnr⟩ := hr
    have hdesc : (descendants r).filter (fun e => e.tag == "row") = [] := by
      rw [List.filter_eq_nil_iff]
      intro a ha
      show ¬ (a.tag == "row") = true
      rw [tag_false_of_noRow r hnr a ha]
      decide
    rw [descList, List.filter_cons, List.filter_append, hdesc, htag]
    rw [ih (fun e he => h e (by simp [he]))]
    simp

theorem filter_postorder_row (r : XElem) (hg : goodRowElem r = true) :
    (postorder r).filter (fun e => e.ns.isSome && e.tag == "row") = [r] := by
  rw [goodRowElem] at hg
  simp only [Bool.and_eq_true] at hg
  obtain ⟨⟨⟨htag, hns⟩, _⟩, hnr⟩ := hg
  have hsub : (postorder r).filter (fun e => e.ns.isSome && e.tag == "row")
      = (r :: descendants r).filter (fun e => e.ns.isSome && e.tag == "row")
        ∨ True := Or.inr trivial
  cases r with
  | mk ns tag nilA tx ch =>
    rw [postorder, List.filter_append, List.filter_cons]
    have hpl : (postList ch).filter (fun e => e.ns.isSome && e.tag == "row") = [] := by
      rw [List.filter_eq_nil_iff]
      intro a ha
      have ha2 : a ∈ descendants (XElem.mk ns tag nilA tx ch) := by
        rw [descendants]
        exact (mem_postList a ch).mp ha
      have := tag_false_of_noRow _ hnr a ha2
      show ¬ (a.ns.isSome && (a.tag == "row")) = true
      rw [this]
      simp
    have hcond : ((XElem.mk ns tag nilA tx ch).ns.isSome &&
        ((XElem.mk ns tag nilA tx ch).tag == "row")) = true := by
      rw [hns, htag]
      rfl
    rw [hpl, hcond]
    simp

theorem filter_postList_row (l : List XElem)
    (h : ∀ e ∈ l, goodRowElem e = true) :
    (postList l).filter (fun e => e.ns.isSome && e.tag == "row") = l := by
  induction l with
  | nil => rfl
  | cons r rs ih =>
    rw [postList, List.filter_append, filter_postorder_row r (h r (by simp))]
    rw [ih (fun e he => h e (by simp [he]))]
    rfl

theorem find?_eq_filter_head (l : List XElem) (t : String)
    (h : ∀ c ∈ l, c.ns.isSome = true) :
    l.find? (fun c => c.ns.isSome && c.tag == t)
      = (l.filter (fun c => c.tag == t)).head? := by
  induction l with
  | nil => rfl
  | cons c cs ih =>
    have hc := h c (by simp)
    rw [List.find?_cons, List.filter_cons]
    by_cases ht : (c.tag == t) = true
    · rw [hc, ht]
      simp
    · rw [hc]
      have ht2 : (c.tag == t) = false := by
        cases hb : c.tag == t
        · rfl
        · exact absurd hb ht
      rw [ht2]
      simp only [Bool.true_and, Bool.false_eq_true, if_false]
      exact ih (fun d hd => h d (by simp [hd]))

theorem extractRow_agree (cols : List ColumnInfo) (r : XElem)
    (h : ∀ c ∈ r.children, c.ns.isSome = true) :
    extractRowStreaming cols r = extractRowWholeDoc cols r := by
  rw [extractRowStreaming, extractRowWholeDoc]
  apply List.map_congr_left
  intro p _
  rw [findColStreaming, findColWholeDoc]
  rw [find?_eq_filter_head r.children ("c" ++ toString (p.1 + 1)) h]

theorem wholeDocRows_eq (root : XElem)
    (h : ∀ e ∈ root.children, goodRowElem e = true) :
    wholeDocRows root = root.children := by
  cases root with
  | mk ns tag nilA tx ch =>
    rw [wholeDocRows, descendants]
    exact filter_descList_no_row ch h

theorem streamingRows_eq (root : XElem)
    (hroot : (root.tag == "row") = false)
    (h : ∀ e ∈ root.children, goodRowElem e = true) :
    streamingRows root = root.children := by
  cases root with
  | mk ns tag nilA tx ch =>
    rw [streamingRows, postorder, List.filter_append, List.filter_cons]
    rw [hroot]
    rw [filter_postList_row ch h]
    simp [XElem.children]

/-- C1, amendment: the two import strategies locate the same rows and
produce identical coerced row sequences for well-shaped *namespaced*
row-data documents; the original claim's "regardless of whether the
document uses an XML namespace" fails (see the counterexample), because
the streaming strategy recognises rows by `tag.endswith('\x7drow')` and
value elements by `tag.endswith('\x7dc<i>')`, both of which only
namespaced elements satisfy. -/
theorem C1_strategies_agree_on_namespaced_docs (bs : Nat)
    (cols : List ColumnInfo) (root : XElem) (h : goodRowDoc root = true) :
    importTableDataStreaming bs cols root = importTableData cols root := by
  rw [goodRowDoc] at h
  simp only [Bool.and_eq_true] at h
  obtain ⟨hroot, hch⟩ := h
  have hch2 : ∀ e ∈ root.children, goodRowElem e = true := List.all_eq_true.mp hch
  have hrootf : (root.tag == "row") = false := by
    cases hb : root.tag == "row"
    · rfl
    · rw [bne, hb] at hroot
      exact absurd hroot (by decide)
  rw [importTableDataStreaming, importTableData, flushBatches_flatten,
    List.nil_append, wholeDocRows_eq root hch2, streamingRows_eq root hrootf hch2]
  apply List.map_congr_left
  intro r hr
  have hg := hch2 r hr
  rw [goodRowElem] at hg
  simp only [Bool.and_eq_true] at hg
  exact extractRow_agree cols r (List.all_eq_true.mp hg.1.2)

/-- A one-table, one-row, one-value document written *without* any XML
namespace. -/
def rowDocNoNs : XElem :=
  .mk none "table" none none
    [.mk none "row" none none [.mk none "c1" none (some "7") []]]

/-- The single TEXT column descriptor used by the C1 counterexample. -/
def cexCols : List ColumnInfo :=
  [{ name := "a", type := "TEXT", nullable := true, original_type := "VARCHAR" }]

/-- C1, counterexample: on a namespace-free row-data document the
whole-document strategy imports the row while the streaming strategy
finds no `row` element at all (its `tag.endswith('\x7drow')` test only
matches namespaced tags), so the two strategies do not produce the same
row sequence. -/
theorem C1_cex_no_namespace_divergence :
    importTableData cexCols rowDocNoNs = [[SqlValue.text "7"]] ∧
    importTableDataStreaming 1000 cexCols rowDocNoNs = [] := by
  constructor
  · rfl
  · rfl

/-- Witness for `C1_strategies_agree_on_namespaced_docs`: the same
document decorated with a namespace satisfies the document predicate and
both strategies import the same single row. -/
theorem C1_strategies_agree_witness :
    goodRowDoc (withNs "urn:x" rowDocNoNs) = true ∧
    importTableDataStreaming 1000 cexCols (withNs "urn:x" rowDocNoNs)
      = importTableData cexCols (withNs "urn:x" rowDocNoNs) :=
  ⟨by rfl, C1_strategies_agree_on_namespaced_docs 1000 cexCols
    (withNs "urn:x" rowDocNoNs) (by rfl)⟩

/-! ### C4, C5, C6: per-value coercion -/

/-- An INTEGER-typed (non-boolean) column descriptor. -/
def intCol : ColumnInfo :=
  { name := "n", type := "INTEGER", nullable := true, original_type := "INT" }

/-- A REAL-typed column descriptor. -/
def realCol : ColumnInfo :=
  { name := "r", type := "REAL", nullable := true, original_type := "DOUBLE" }

/-- A BOOLEAN-sourced column descriptor (storage type INTEGER). -/
def boolCol : ColumnInfo :=
  { name := "b", type := "INTEGER", nullable := true, original_type := "BOOLEAN" }

/-- A value element whose text is whitespace only. -/
def blankEl : XElem := .mk none "c1" none (some "   ") []

/-- A value element with unparsable numeric text. -/
def abcEl : XElem := .mk none "c1" none (some "abc") []

/-- A value element with text `TRUE` (upper case). -/
def trueUpperEl : XElem := .mk none "c1" none (some "TRUE") []

/-- C4, counterexample: for an integer (non-boolean) column, a value
element whose text is whitespace-only does *not* store NULL — the
`elif value:` guard skips the numeric conversion for the empty stripped
string, which is then inserted as the empty text value.  The claim's
"including whitespace-only / empty text" is therefore false. -/
theorem C4_cex_blank_text_stores_empty_string :
    pyIntParse (pyStrip "   ") = none ∧
    coerceValue intCol (some blankEl) = SqlValue.text "" := by
  constructor
  · rfl
  · rfl

/-- C4, amendment: for an integer (non-boolean) column whose element text
strips to a *non-empty* string that `int()` rejects, the stored value is
NULL; likewise for a real column with text that `float()` rejects.
(Empty/whitespace-only text instead stores the empty string, per the
counterexample.) -/
theorem C4_unparsable_nonempty_text_null (col : ColumnInfo) (el : XElem)
    (t : String)
    (hnil : ¬ el.nilAttr = some "true") (htext : el.text = some t)
    (hne : pyStrip t ≠ "")
    (hcase :
      (col.type = "INTEGER" ∧ asciiUpper col.original_type ≠ "BOOLEAN" ∧
        pyIntParse (pyStrip t) = none) ∨
      (col.type = "REAL" ∧ pyFloatOk (pyStrip t) = false)) :
    coerceValue col (some el) = SqlValue.null := by
  rcases hcase with ⟨hty, hnb, hparse⟩ | ⟨hty, hfloat⟩
  · simp [coerceValue, hnil, htext, hty, hnb, hne, hparse]
  · simp [coerceValue, hnil, htext, hty, hne, hfloat]

/-- Witness for `C4_unparsable_nonempty_text_null` at the concrete
input `abc` for an integer column. -/
theorem C4_unparsable_nonempty_text_null_witness :
    pyStrip "abc" ≠ "" ∧ pyIntParse (pyStrip "abc") = none ∧
    coerceValue intCol (some abcEl) = SqlValue.null :=
  ⟨by decide, by rfl,
    C4_unparsable_nonempty_text_null intCol abcEl "abc" (by simp [abcEl, XElem.nilAttr])
      rfl (by decide) (Or.inl ⟨rfl, by decide, by rfl⟩)⟩

/-- The boolean coercion table exactly as the claim states it: the four
listed literals, every other string to 0. -/
def specBoolCoerce (s : String) : Int :=
  if s = "true" ∨ s = "1" then 1 else 0

/-- C5, counterexample: the code lowercases the value before comparing,
so the value `TRUE` — "any other string" per the claim's table, which
would demand 0 — coerces to 1. -/
theorem C5_cex_upper_case_true :
    coerceValue boolCol (some trueUpperEl) = SqlValue.int 1 ∧
    specBoolCoerce "TRUE" = 0 := by
  constructor
  · rfl
  · simp [specBoolCoerce]

/-- C5, amendment: for a BOOLEAN-sourced column the comparison is made on
the lower-cased stripped text: `true`/`1` (case-insensitively) coerce to
1 and every other string — including `false`/`0` — coerces to 0, in the
single coercion routine shared verbatim by both import strategies. -/
theorem C5_boolean_coercion_lowercased (col : ColumnInfo) (el : XElem)
    (t : String)
    (hty : col.type = "INTEGER") (hb : asciiUpper col.original_type = "BOOLEAN")
    (hnil : ¬ el.nilAttr = some "true") (htext : el.text = some t) :
    coerceValue col (some el) =
      SqlValue.int
        (if asciiLower (pyStrip t) = "true" ∨ asciiLower (pyStrip t) = "1"
         then 1 else 0) := by
  by_cases h1 : asciiLower (pyStrip t) = "true" ∨ asciiLower (pyStrip t) = "1"
  · rcases h1 with h1 | h1 <;>
      simp [coerceValue, hnil, htext, hty, hb, h1]
  · push_neg at h1
    by_cases h2 : asciiLower (pyStrip t) = "false" ∨ asciiLower (pyStrip t) = "0"
    · rcases h2 with h2 | h2 <;>
        simp [coerceValue, hnil, htext, hty, hb, h1.1, h1.2, h2]
    · push_neg at h2
      simp [coerceValue, hnil, htext, hty, hb, h1.1, h1.2, h2.1, h2.2]

/-- Witness for `C5_boolean_coercion_lowercased` at the concrete input
`TRUE`. -/
theorem C5_boolean_coercion_lowercased_witness :
    coerceValue boolCol (some trueUpperEl) =
      SqlValue.int
        (if asciiLower (pyStrip "TRUE") = "true" ∨ asciiLower (pyStrip "TRUE") = "1"
         then 1 else 0) :=
  C5_boolean_coercion_lowercased boolCol trueUpperEl "TRUE" rfl (by rfl)
    (by simp [trueUpperEl, XElem.nilAttr]) rfl

/-- C6: an element whose `xsi:nil` attribute equals `true` (the
nil-indicator with which SIARD marks SQL NULL) always coerces to NULL —
the nil test precedes every type-based branch of the shared coercion
routine, so the column's storage and source types and any text content
are irrelevant. -/
theorem C6_nil_indicator_always_null (col : ColumnInfo) (el : XElem)
    (h : el.nilAttr = some "true") :
    coerceValue col (some el) = SqlValue.null := by
  simp [coerceValue, h]

/-- Witness for `C6_nil_indicator_always_null`: a nil-marked element with
non-empty numeric text in an integer column. -/
theorem C6_nil_indicator_always_null_witness :
    (XElem.mk none "c1" (some "true") (some "123") []).nilAttr = some "true" ∧
    coerceValue intCol (some (.mk none "c1" (some "true") (some "123") []))
      = SqlValue.null :=
  ⟨rfl, C6_nil_indicator_always_null intCol _ rfl⟩

/-! ### C10: absent `c<i>` elements -/

/-- C10: when a row element has no child `c<i+1>` at all, both strategies
place NULL at position `i` and the row keeps one value per descriptor
column (no shifting: every position is looked up by its own index). -/
theorem C10_missing_column_inserts_null (cols : List ColumnInfo) (row : XElem)
    (i : Nat) (hi : i < cols.length)
    (habsent : ∀ c ∈ row.children, c.tag ≠ "c" ++ toString (i + 1)) :
    (extractRowWholeDoc cols row).length = cols.length ∧
    (extractRowStreaming cols row).length = cols.length ∧
    (extractRowWholeDoc cols row)[i]? = some SqlValue.null ∧
    (extractRowStreaming cols row)[i]? = some SqlValue.null := by
  have hwhole : findColWholeDoc row i = none := by
    rw [findColWholeDoc]
    have : row.children.filter (fun c => c.tag == "c" ++ toString (i + 1)) = [] := by
      rw [List.filter_eq_nil_iff]
      intro a ha
      show ¬ (a.tag == "c" ++ toString (i + 1)) = true
      simpa using habsent a ha
    rw [this]
    rfl
  have hstream : findColStreaming row i = none := by
    rw [findColStreaming, List.find?_eq_none]
    intro a ha
    have := habsent a ha
    simp [this]
  have hgetenum : cols.enum[i]? = some (i, cols[i]) := by
    rw [List.getElem?_enum]
    simp [hi]
  refine ⟨by simp [extractRowWholeDoc], by simp [extractRowStreaming], ?_, ?_⟩
  · rw [extractRowWholeDoc, List.getElem?_map, hgetenum]
    simp [hwhole, coerceValue]
  · rw [extractRowStreaming, List.getElem?_map, hgetenum]
    simp [hstream, coerceValue]

/-- Two-column descriptor list for the C10 witness. -/
def colsPair : List ColumnInfo :=
  [intCol, { name := "t", type := "TEXT", nullable := true, original_type := "VARCHAR" }]

/-- A row element missing `c1` but carrying `c2`. -/
def rowMissingC1 : XElem :=
  .mk none "row" none none [.mk none "c2" none (some "x") []]

/-- Witness for `C10_missing_column_inserts_null`: with `c1` absent, both
strategies produce `[NULL, "x"]` — NULL at the missing position and the
later value unshifted. -/
theorem C10_missing_column_inserts_null_witness :
    ((extractRowWholeDoc colsPair rowMissingC1).length = colsPair.length ∧
      (extractRowStreaming colsPair rowMissingC1).length = colsPair.length ∧
      (extractRowWholeDoc colsPair rowMissingC1)[0]? = some SqlValue.null ∧
      (extractRowStreaming colsPair rowMissingC1)[0]? = some SqlValue.null) ∧
    extractRowWholeDoc colsPair rowMissingC1 = [SqlValue.null, SqlValue.text "x"] :=
  ⟨C10_missing_column_inserts_null colsPair rowMissingC1 0 (by decide)
      (by decide), by rfl⟩

/-! ### C7: the View Query Translator (`_convert_query_to_sqlite`)

Each `re.sub` of the Python source is modelled by a scanner over
`List Char`: at every position the pattern-specific matcher is tried
(receiving the previous original character so word boundaries can be
checked); on a match the replacement is emitted and scanning resumes
after the consumed characters, exactly like `re.sub`'s non-overlapping
left-to-right semantics.  Greedy `+` quantifiers whose follow-set is
disjoint from their character class (all the patterns below) need no
backtracking; the lazy `.*?` of the `VIEW ... AS` extraction is
implemented with its proper priority order.
-/

/-- Case-insensitive literal match: consume `pat` (ASCII) from `l`,
returning the rest. -/
def ciStrip : List Char → List Char → Option (List Char)
  | [], rest => some rest
  | _ :: _, [] => none
  | p :: ps, c :: cs => if c.toLower = p.toLower then ciStrip ps cs else none

/-- Greedy `+` over a character class: at least one matching character. -/
def takeWhile1 (p : Char → Bool) (l : List Char) : Option (List Char × List Char) :=
  match l.takeWhile p with
  | [] => none
  | t => some (t, l.drop t.length)

/-- Word boundary before the match: start of string or previous character
not a `\w` character (all patterns below begin with a word character). -/
def prevNonWord : Option Char → Bool
  | none => true
  | some c => !isWordChar c

/-- Word boundary after the match: end of string or next character not a
`\w` character (used after `\d+`). -/
def nextNonWord : List Char → Bool
  | [] => true
  | c :: _ => !isWordChar c

/-- The non-overlapping left-to-right substitution scan of `re.sub`,
fuelled by the input length (every match consumes at least one
character).  `f prev s` returns `(replacement, k)` when it matches `k+1`
characters at the head of `s`; `prev` is the previous character of the
original string for word-boundary tests. -/
def subScanFuel (f : Option Char → List Char → Option (List Char × Nat)) :
    Nat → Option Char → List Char → List Char
  | 0, _, l => l
  | _ + 1, _, [] => []
  | fuel + 1, prev, c :: cs =>
    match f prev (c :: cs) with
    | some (rep, k) =>
      rep ++ subScanFuel f fuel (((c :: cs).take (k + 1)).getLast?) (cs.drop k)
    | none => c :: subScanFuel f fuel (some c) cs

/-- Entry point of the substitution scan. -/
def subScan (f : Option Char → List Char → Option (List Char × Nat))
    (l : List Char) : List Char :=
  subScanFuel f l.length none l

/-- `re.sub(r'\bALGORITHM=\w+\s+', '', q, flags=re.IGNORECASE)`. -/
def tryAlgorithm (prev : Option Char) (l : List Char) : Option (List Char × Nat) :=
  if prevNonWord prev then
    match ciStrip "ALGORITHM=".data l with
    | none => none
    | some r1 =>
      match takeWhile1 isWordChar r1 with
      | none => none
      | some (_, r2) =>
        match takeWhile1 pyIsSpace r2 with
        | none => none
        | some (_, r3) => some ([], l.length - r3.length - 1)
  else none

/-- A single character expected at the head of the list. -/
def expectChar (c : Char) : List Char → Option (List Char)
  | [] => none
  | d :: ds => if d = c then some ds else none

/-- `re.sub(r'\bDEFINER=`[^`]+`@`[^`]+`\s+', '', q, flags=re.IGNORECASE)`. -/
def tryDefiner (prev : Option Char) (l : List Char) : Option (List Char × Nat) :=
  if prevNonWord prev then
    match ciStrip "DEFINER=".data l with
    | none => none
    | some r1 =>
      match expectChar '`' r1 with
      | none => none
      | some r2 =>
        match takeWhile1 (fun c => c ≠ '`') r2 with
        | none => none
        | some (_, r3) =>
          match expectChar '`' r3 with
          | none => none
          | some r4 =>
            match expectChar '@' r4 with
            | none => none
            | some r5 =>
              match expectChar '`' r5 with
              | none => none
              | some r6 =>
                match takeWhile1 (fun c => c ≠ '`') r6 with
                | none => none
                | some (_, r7) =>
                  match expectChar '`' r7 with
                  | none => none
                  | some r8 =>
                    match takeWhile1 pyIsSpace r8 with
                    | none => none
                    | some (_, r9) => some ([], l.length - r9.length - 1)
  else none

/-- `re.sub(r'\bSQL\s+SECURITY\s+\w+\s+', '', q, flags=re.IGNORECASE)`. -/
def trySqlSecurity (prev : Option Char) (l : List Char) : Option (List Char × Nat) :=
  if prevNonWord prev then
    match ciStrip "SQL".data l with
    | none => none
    | some r1 =>
      match takeWhile1 pyIsSpace r1 with
      | none => none
      | some (_, r2) =>
        match ciStrip "SECURITY".data r2 with
        | none => none
        | some r3 =>
          match takeWhile1 pyIsSpace r3 with
          | none => none
          | some (_, r4) =>
            match takeWhile1 isWordChar r4 with
            | none => none
            | some (_, r5) =>
              match takeWhile1 pyIsSpace r5 with
              | none => none
              | some (_, r6) => some ([], l.length - r6.length - 1)
  else none

/-- `re.sub(r'`([^`]+)`', r'\1', q)`: drop paired identifier backticks. -/
def tryBacktick (_ : Option Char) (l : List Char) : Option (List Char × Nat) :=
  match expectChar '`' l with
  | none => none
  | some r1 =>
    match takeWhile1 (fun c => c ≠ '`') r1 with
    | none => none
    | some (inner, r2) =>
      match expectChar '`' r2 with
      | none => none
      | some _ => some (inner, inner.length + 1)

/-- `re.sub(r'\s+AS\s+(\w+)', r' AS \1', q, flags=re.IGNORECASE)`. -/
def tryAsAlias (_ : Option Char) (l : List Char) : Option (List Char × Nat) :=
  match takeWhile1 pyIsSpace l with
  | none => none
  | some (_, r1) =>
    match ciStrip "AS".data r1 with
    | none => none
    | some r2 =>
      match takeWhile1 pyIsSpace r2 with
      | none => none
      | some (_, r3) =>
        match takeWhile1 isWordChar r3 with
        | none => none
        | some (w, r4) =>
          some (' ' :: 'A' :: 'S' :: ' ' :: w, l.length - r4.length - 1)

/-- `re.sub(r'\bTOP\s+\d+\b', '', q, flags=re.IGNORECASE)`. -/
def tryTop (prev : Option Char) (l : List Char) : Option (List Char × Nat) :=
  if prevNonWord prev then
    match ciStrip "TOP".data l with
    | none => none
    | some r1 =>
      match takeWhile1 pyIsSpace r1 with
      | none => none
      | some (_, r2) =>
        match takeWhile1 Char.isDigit r2 with
        | none => none
        | some (_, r3) =>
          if nextNonWord r3 then some ([], l.length - r3.length - 1) else none
  else none

/-- `re.sub(r'\bLIMIT\s+(\d+)\s+OFFSET\s+(\d+)\b', r'LIMIT \2 OFFSET \1',
q, flags=re.IGNORECASE)`: the operand swap. -/
def tryLimitOffset (prev : Option Char) (l : List Char) : Option (List Char × Nat) :=
  if prevNonWord prev then
    match ciStrip "LIMIT".data l with
    | none => none
    | some r1 =>
      match takeWhile1 pyIsSpace r1 with
      | none => none
      | some (_, r2) =>
        match takeWhile1 Char.isDigit r2 with
        | none => none
        | some (d1, r3) =>
          match takeWhile1 pyIsSpace r3 with
          | none => none
          | some (_, r4) =>
            match ciStrip "OFFSET".data r4 with
            | none => none
            | some r5 =>
              match takeWhile1 pyIsSpace r5 with
              | none => none
              | some (_, r6) =>
                match takeWhile1 Char.isDigit r6 with
                | none => none
                | some (d2, r7) =>
                  if nextNonWord r7 then
                    some ("LIMIT ".data ++ d2 ++ " OFFSET ".data ++ d1,
                      l.length - r7.length - 1)
                  else none
  else none

/-- `re.sub(r'\btrue\b', '1', q, flags=re.IGNORECASE)`. -/
def tryTrueLit (prev : Option Char) (l : List Char) : Option (List Char × Nat) :=
  if prevNonWord prev then
    match ciStrip "true".data l with
    | none => none
    | some r1 => if nextNonWord r1 then some (['1'], 3) else none
  else none

/-- `re.sub(r'\bfalse\b', '0', q, flags=re.IGNORECASE)`. -/
def tryFalseLit (prev : Option Char) (l : List Char) : Option (List Char × Nat) :=
  if prevNonWord prev then
    match ciStrip "false".data l with
    | none => none
    | some r1 => if nextNonWord r1 then some (['0'], 4) else none
  else none

/-- Tail `\s+AS\s+(.+)` of the view-extraction regex at a fixed position,
with the proper backtracking of the greedy `\s+` before the greedy
`(.+)` (one whitespace character is given back when the string would
otherwise end). -/
def wsAsTail (l : List Char) : Option (List Char) :=
  match takeWhile1 pyIsSpace l with
  | none => none
  | some (_, r1) =>
    match ciStrip "AS".data r1 with
    | none => none
    | some r2 =>
      match takeWhile1 pyIsSpace r2 with
      | none => none
      | some (sp, r3) =>
        match r3 with
        | _ :: _ => some r3
        | [] => if 2 ≤ sp.length then some (sp.drop (sp.length - 1)) else none

/-- Positions of the lazy `.*?` tried in ascending order. -/
def searchWsAsTail : List Char → Option (List Char)
  | [] => none
  | c :: cs =>
    match wsAsTail (c :: cs) with
    | some g => some g
    | none => searchWsAsTail cs

/-- Backtracking of the greedy `\s+` following `VIEW`: positions strictly
inside the initial whitespace run, tried from long to short. -/
def viewWsBacktrack (r1 : List Char) : Nat → Option (List Char)
  | 0 => none
  | a + 1 =>
    match wsAsTail (r1.drop (a + 1)) with
    | some g => some g
    | none => viewWsBacktrack r1 a

/-- Match `VIEW\s+.*?\s+AS\s+(.+)` (DOTALL, IGNORECASE) at a fixed
position; returns group 1. -/
def viewAsAt (l : List Char) : Option (List Char) :=
  match ciStrip "VIEW".data l with
  | none => none
  | some r1 =>
    match (r1.takeWhile pyIsSpace).length with
    | 0 => none
    | m + 1 =>
      match searchWsAsTail (r1.drop (m + 1)) with
      | some g => some g
      | none => viewWsBacktrack r1 m

/-- `re.search(r'VIEW\s+.*?\s+AS\s+(.+)', q, re.IGNORECASE | re.DOTALL)`:
leftmost match, returning group 1. -/
def searchViewAs : List Char → Option (List Char)
  | [] => none
  | c :: cs =>
    match viewAsAt (c :: cs) with
    | some g => some g
    | none => searchViewAs cs

/-- Model of `SiardToSqlite._convert_query_to_sqlite`: the full transform
pipeline in source order — CREATE-VIEW extraction, vendor-clause
stripping (`ALGORITHM`, `DEFINER`, `SQL SECURITY`), backtick removal,
`AS`-alias normalisation, `TOP n` removal, `LIMIT/OFFSET` operand swap,
boolean-literal rewrite, trailing-semicolon strip. -/
def convertQueryToSqlite (query : String) : String :=
  if query = "" then query
  else
    let q0 := (pyStrip query).data
    let e0 :=
      if List.isPrefixOf "CREATE".data (q0.map Char.toUpper) then
        match searchViewAs q0 with
        | some g => pyStripList g
        | none => q0
      else q0
    let e1 := subScan tryAlgorithm e0
    let e2 := subScan tryDefiner e1
    let e3 := subScan trySqlSecurity e2
    let e4 := subScan tryBacktick e3
    let e5 := subScan tryAsAlias e4
    let e6 := subScan tryTop e5
    let e7 := subScan tryLimitOffset e6
    let e8 := subScan tryTrueLit e7
    let e9 := subScan tryFalseLit e8
    String.mk ((e9.reverse.dropWhile (· = ';')).reverse)

/-- C7: the documented end-to-end scenario — the MySQL-style CREATE VIEW
statement is reduced to its SELECT body, the boolean literal is
rewritten, the LIMIT/OFFSET operands are swapped and the terminator is
stripped, the transforms being applied in the pipeline's fixed source
order. -/
theorem C7_view_query_translation :
    convertQueryToSqlite
      "CREATE ALGORITHM=UNDEFINED VIEW v AS SELECT a,b FROM t WHERE flag=true LIMIT 5 OFFSET 2;"
      = "SELECT a,b FROM t WHERE flag=1 LIMIT 2 OFFSET 5" := by
  rfl

/-! ### Metadata Model Builder

`_parse_metadata` hands every helper an `nsmap` derived from the root:
when the document declares a *default* namespace the prefix `siard` is
bound to it and `ns_prefix` is the string `siard:`; otherwise (no
namespace at all, or only a non-default prefixed declaration) `nsmap`
contains no `siard` binding and `ns_prefix` is empty.  The model carries
this as `ctx : Option String` — the URI bound to `siard`, i.e. the
value of the default-namespace declaration.

The XPath expressions actually used are the three shapes
`name`, `siard:name`, `*[local-name()="name"]` (child axis) and their
`.//`-anchored descendant versions, plus `.`.  An XPath evaluation
error (unbound prefix) and an empty result are indistinguishable to
every caller (both fall through to the next strategy), so the model
returns `[]` for an unbound prefix. -/

/-- Python `s.split(':')[-1]`. -/
def afterLastColon (l : List Char) : List Char :=
  (l.reverse.takeWhile (fun c => c ≠ ':')).reverse

/-- `xpath.endswith(s)`. -/
def xpEndsWith (xp : String) (s : String) : Bool :=
  List.isSuffixOf s.data xp.data

/-- The node-test shapes occurring in the converter's XPath strings. -/
inductive NodeTest
  | anyLocal (t : String)
  | plain (t : String)
  | qualified (px : String) (t : String)
deriving DecidableEq, Repr

/-- Parse one of the converter's node tests. -/
def parseNodeTest (xp : String) : NodeTest :=
  if List.isPrefixOf ("*[local-name()=\"".data) xp.data then
    .anyLocal (String.mk ((xp.data.drop 16).dropLast.dropLast))
  else if xp.data.contains ':' then
    .qualified (String.mk (xp.data.takeWhile (fun c => c ≠ ':')))
      (String.mk (afterLastColon xp.data))
  else .plain xp

/-- Element test against a node test: an unprefixed name matches only
no-namespace elements, `siard:`-qualified names match elements in the
bound default namespace, the `local-name()` wildcard ignores namespaces. -/
def testElem (ctx : Option String) (nt : NodeTest) (c : XElem) : Bool :=
  match nt with
  | .anyLocal t => c.tag == t
  | .plain t => c.ns == none && c.tag == t
  | .qualified px t =>
    match ctx with
    | some u => px == "siard" && c.ns == some u && c.tag == t
    | none => false

/-- Child-axis evaluation of the relative XPaths used by
`_get_element_text` (`.` returns the context element itself). -/
def evalRel (ctx : Option String) (e : XElem) (xp : String) : List XElem :=
  if xp = "." then [e]
  else e.children.filter (testElem ctx (parseNodeTest xp))

/-- Descendant-axis evaluation of a `.//`-anchored XPath (the leading
three characters are stripped, the rest is a node test). -/
def evalDescStr (ctx : Option String) (e : XElem) (xp : String) : List XElem :=
  (descendants e).filter (testElem ctx (parseNodeTest (String.mk (xp.data.drop 3))))

/-- The `if elements and elements[0].text: return elements[0].text.strip()`
step shared by every lookup strategy. -/
def elemsTextTruthy (l : List XElem) : Option String :=
  match l with
  | [] => none
  | x :: _ =>
    match x.text with
    | none => none
    | some t => if t = "" then none else some (pyStrip t)

/-- The alternative-XPath list of `_get_element_text`, selected on the
shape of the original XPath string (note that `column` and
`description` end in `n` and therefore get the `n`/`name` aliases). -/
def altListFor (xp : String) : List String :=
  if xpEndsWith xp "n" then
    ["n", "*[local-name()=\"n\"]", "name", "*[local-name()=\"name\"]"]
  else if xpEndsWith xp "type" then ["type", "*[local-name()=\"type\"]"]
  else if xpEndsWith xp "nullable" then ["nullable", "*[local-name()=\"nullable\"]"]
  else if xpEndsWith xp "folder" then ["folder", "*[local-name()=\"folder\"]"]
  else [if xp.data.contains ':' then String.mk (afterLastColon xp.data) else xp]

/-- Try the alternatives in order; first truthy text wins. -/
def firstAltText (ctx : Option String) (e : XElem) : List String → Option String
  | [] => none
  | xp :: rest =>
    match elemsTextTruthy (evalRel ctx e xp) with
    | some r => some r
    | none => firstAltText ctx e rest

/-- The last-resort direct-children scan of `_get_element_text`. -/
def lastResortChildren (xp : String) : List XElem → Option String
  | [] => none
  | c :: cs =>
    if (c.tag == "n" || c.tag == "name") && (xpEndsWith xp "n" || xpEndsWith xp "name") then
      match c.text with
      | some t => if t = "" then lastResortChildren xp cs else some (pyStrip t)
      | none => lastResortChildren xp cs
    else if c.tag == "type" && xpEndsWith xp "type" then
      match c.text with
      | some t => if t = "" then lastResortChildren xp cs else some (pyStrip t)
      | none => lastResortChildren xp cs
    else if c.tag == "nullable" && xpEndsWith xp "nullable" then
      match c.text with
      | some t => if t = "" then lastResortChildren xp cs else some (pyStrip t)
      | none => lastResortChildren xp cs
    else lastResortChildren xp cs

/-- Model of `SiardToSqlite._get_element_text`: exact XPath, then the
alternatives, then the direct-children scan. -/
def getElementText (ctx : Option String) (e : XElem) (xp : String) : Option String :=
  match elemsTextTruthy (evalRel ctx e xp) with
  | some r => some r
  | none =>
    match firstAltText ctx e (altListFor xp) with
    | some r => some r
    | none => lastResortChildren xp e.children

/-- Python truthiness of an optional string. -/
def optTruthy : Option String → Bool
  | none => false
  | some s => s != ""

/-- `ns_prefix` as computed by `_parse_metadata`. -/
def nsPrefixStr (ctx : Option String) : String :=
  if ctx.isSome then "siard:" else ""

/-- The ubiquitous call-site pattern
`v = get(prefix + f); if not v: v = get(f)`. -/
def lookupField (ctx : Option String) (e : XElem) (f : String) : Option String :=
  let v := getElementText ctx e (nsPrefixStr ctx ++ f)
  if optTruthy v then v else getElementText ctx e f

/-- First non-empty result list among the XPath strategies. -/
def firstNonEmptyElems : List (List XElem) → List XElem
  | [] => []
  | l :: rest => if l.isEmpty then firstNonEmptyElems rest else l

/-- Model of `SiardToSqlite._find_elements_by_xpath`. -/
def findElements (ctx : Option String) (e : XElem) (name : String) : List XElem :=
  firstNonEmptyElems
    [evalDescStr ctx e (".//" ++ nsPrefixStr ctx ++ name),
     evalDescStr ctx e (".//" ++ name),
     evalDescStr ctx e (".//*[local-name()=\"" ++ name ++ "\"]")]

/-- The `TYPE_MAPPING` dictionary. -/
def TYPE_MAPPING : List (String × String) :=
  [("CHARACTER", "TEXT"), ("VARCHAR", "TEXT"), ("CHAR", "TEXT"),
   ("TEXT", "TEXT"), ("CLOB", "TEXT"),
   ("INTEGER", "INTEGER"), ("INT", "INTEGER"), ("BIGINT", "INTEGER"),
   ("SMALLINT", "INTEGER"), ("TINYINT", "INTEGER"),
   ("DECIMAL", "REAL"), ("NUMERIC", "REAL"), ("FLOAT", "REAL"),
   ("DOUBLE", "REAL"), ("REAL", "REAL"),
   ("DATE", "TEXT"), ("TIME", "TEXT"), ("TIMESTAMP", "TEXT"),
   ("DATETIME", "TEXT"),
   ("BOOLEAN", "INTEGER"), ("BOOL", "INTEGER"),
   ("BLOB", "BLOB"), ("BINARY", "BLOB"), ("VARBINARY", "BLOB")]

/-- `TYPE_MAPPING.get(key, 'TEXT')`. -/
def typeMappingGet (k : String) : String :=
  match TYPE_MAPPING.find? (fun p => p.1 == k) with
  | some p => p.2
  | none => "TEXT"

/-- Model of `SiardToSqlite._parse_column`. -/
def parseColumn (ctx : Option String) (e : XElem) : Option ColumnInfo :=
  let column_name := lookupField ctx e "n"
  let column_type := lookupField ctx e "type"
  let nullable := lookupField ctx e "nullable"
  if optTruthy column_name && optTruthy column_type then
    some { name := sanitizeName (column_name.getD ""),
           type := typeMappingGet (asciiUpper (column_type.getD "")),
           nullable := !(nullable == some "false"),
           original_type := column_type.getD "" }
  else none

/-- Model of `SiardToSqlite._parse_foreign_key`. -/
def parseForeignKey (ctx : Option String) (e : XElem) : Option FKInfo :=
  let fk_name := lookupField ctx e "n"
  let referenced_schema := lookupField ctx e "referencedSchema"
  let referenced_table := lookupField ctx e "referencedTable"
  if optTruthy referenced_table then
    let pairs := (findElements ctx e "reference").foldl
      (fun (acc : List String × List String) r =>
        let src := lookupField ctx r "column"
        let tgt := lookupField ctx r "referenced"
        ((if optTruthy src then acc.1 ++ [sanitizeName (src.getD "")] else acc.1),
         (if optTruthy tgt then acc.2 ++ [sanitizeName (tgt.getD "")] else acc.2)))
      ([], [])
    some { name := if optTruthy fk_name then some (sanitizeName (fk_name.getD "")) else none,
           referenced_table := sanitizeName (referenced_table.getD ""),
           referenced_schema := referenced_schema,
           source_columns := pairs.1,
           target_columns := pairs.2 }
  else none

/-- One `primaryKey` element's contribution: the truthy `.`-text of each
of its `column` descendants, sanitised and appended. -/
def pkColumnsOf (ctx : Option String) (pk : XElem) (acc : List String) : List String :=
  (findElements ctx pk "column").foldl
    (fun a ce =>
      match getElementText ctx ce "." with
      | some s => if s ≠ "" then a ++ [sanitizeName s] else a
      | none => a) acc

/-- The primary-key loop of `_parse_table`: process `primaryKey`
elements in document order, breaking as soon as the accumulated key is
non-empty. -/
def pkLoop (ctx : Option String) : List XElem → List String → List String
  | [], acc => acc
  | pk :: rest, acc =>
    let acc2 := pkColumnsOf ctx pk acc
    if acc2.isEmpty then pkLoop ctx rest acc2 else acc2

/-- Model of `SiardToSqlite._parse_table`. -/
def parseTable (ctx : Option String) (e : XElem) (table_index : Nat) :
    Option TableInfo :=
  let table_name := lookupField ctx e "n"
  if !optTruthy table_name then none
  else
    let columns_found := findElements ctx e "column"
    if columns_found.isEmpty then none
    else
      let cols := columns_found.filterMap (parseColumn ctx)
      if cols.isEmpty then none
      else
        some { name := sanitizeName (table_name.getD ""),
               columns := cols,
               primary_key := pkLoop ctx (findElements ctx e "primaryKey") [],
               foreign_keys :=
                 (findElements ctx e "foreignKey").filterMap (parseForeignKey ctx),
               table_index := table_index }

/-- Model of `SiardToSqlite._parse_view` (the four-step `query` /
`queryOriginal` fallback chain and the two-step `description` chain). -/
def parseView (ctx : Option String) (e : XElem) : Option ViewInfo :=
  let view_name := lookupField ctx e "n"
  if !optTruthy view_name then none
  else
    let q1 := getElementText ctx e (nsPrefixStr ctx ++ "query")
    let q2 := if optTruthy q1 then q1 else getElementText ctx e "query"
    let q3 := if optTruthy q2 then q2
      else getElementText ctx e (nsPrefixStr ctx ++ "queryOriginal")
    let q4 := if optTruthy q3 then q3 else getElementText ctx e "queryOriginal"
    let d1 := getElementText ctx e (nsPrefixStr ctx ++ "description")
    let d2 := if optTruthy d1 then d1 else getElementText ctx e "description"
    some { name := sanitizeName (view_name.getD ""),
           query := q4,
           description := d2,
           columns := (findElements ctx e "column").filterMap (parseColumn ctx) }

/-- Model of `SiardToSqlite._parse_schema` (note the early return: when
no `table` elements are found the schema is returned with *no* views
either, the view pass being skipped). -/
def parseSchema (ctx : Option String) (e : XElem) : Option SchemaInfo :=
  let schema_name := lookupField ctx e "n"
  if !optTruthy schema_name then none
  else
    let schema_folder := lookupField ctx e "folder"
    let folderVal := if optTruthy schema_folder then schema_folder.getD ""
      else schema_name.getD ""
    let tables_found := findElements ctx e "table"
    if tables_found.isEmpty then
      some { name := schema_name.getD "", folder := folderVal,
             tables := [], views := [] }
    else
      some { name := schema_name.getD "", folder := folderVal,
             tables := tables_found.enum.filterMap
               (fun p => parseTable ctx p.2 (p.1 + 1)),
             views := (findElements ctx e "view").filterMap (parseView ctx) }

/-- Model of `SiardToSqlite._parse_metadata` after the XML parse: the
schema elements are found with the *single* XPath
`.//<ns_prefix>schema` (no fallback strategies here), then parsed.
`ctx` is the default-namespace URI of the root (`none` both for a
namespace-free document and for a document using only a non-default,
prefixed namespace declaration). -/
def parseMetadata (root : XElem) (ctx : Option String) : List SchemaInfo :=
  ((descendants root).filter
      (testElem ctx (parseNodeTest (nsPrefixStr ctx ++ "schema")))).filterMap
    (parseSchema ctx)

/-! ### C9: primary-key parsing -/

/-- A table element with two `primaryKey` elements: the first yields no
column names, the second yields `id`. -/
def pkTableCex : XElem :=
  .mk none "table" none none
    [.mk none "n" none (some "t") [],
     .mk none "columns" none none
       [.mk none "column" none none
         [.mk none "n" none (some "id") [],
          .mk none "type" none (some "INTEGER") []]],
     .mk none "primaryKey" none none [],
     .mk none "primaryKey" none none
       [.mk none "column" none (some "id") []]]

/-- The claim's reading of primary-key parsing: only the first
`primaryKey` element in document order contributes, later ones are
ignored even when the first yields no names. -/
def claimFirstPkOnly (ctx : Option String) (tableElem : XElem) : List String :=
  match findElements ctx tableElem "primaryKey" with
  | [] => []
  | pk :: _ => pkColumnsOf ctx pk []

/-- C9, counterexample: on `pkTableCex` the parser's primary key is
`[id]` — taken from the *second* `primaryKey` element because the first
yielded nothing (the loop breaks only on a non-empty accumulated key) —
whereas the claim's first-element-only reading demands the empty key. -/
theorem C9_cex_empty_first_pk_falls_through :
    (parseTable none pkTableCex 1).map TableInfo.primary_key = some ["id"] ∧
    claimFirstPkOnly none pkTableCex = [] := by
  constructor
  · rfl
  · rfl

/-- C9, amendment: subsequent `primaryKey` elements are ignored as soon
as the accumulated key is non-empty — in particular the first
`primaryKey` element wins whenever it yields at least one column name —
but a `primaryKey` element that yields no names falls through to the
next one. -/
theorem C9_pk_loop_first_nonempty_wins (ctx : Option String) (pk : XElem)
    (rest : List XElem) :
    (pkColumnsOf ctx pk [] ≠ [] →
      pkLoop ctx (pk :: rest) [] = pkColumnsOf ctx pk []) ∧
    (pkColumnsOf ctx pk [] = [] →
      pkLoop ctx (pk :: rest) [] = pkLoop ctx rest []) := by
  constructor
  · intro h
    rw [pkLoop]
    simp only [List.isEmpty_iff]
    rw [if_neg h]
  · intro h
    rw [pkLoop]
    simp only [List.isEmpty_iff]
    rw [if_pos h, h]

/-- Witness for `C9_pk_loop_first_nonempty_wins`: both implications
applied at the two concrete `primaryKey` elements of `pkTableCex`. -/
theorem C9_pk_loop_first_nonempty_wins_witness :
    (pkColumnsOf none (.mk none "primaryKey" none none
        [.mk none "column" none (some "id") []]) [] ≠ [] ∧
      pkLoop none [.mk none "primaryKey" none none
          [.mk none "column" none (some "id") []],
        .mk none "primaryKey" none none [.mk none "column" none (some "zz") []]] []
        = pkColumnsOf none (.mk none "primaryKey" none none
            [.mk none "column" none (some "id") []]) []) ∧
    (pkColumnsOf none (.mk none "primaryKey" none none []) [] = [] ∧
      pkLoop none [.mk none "primaryKey" none none [],
          .mk none "primaryKey" none none [.mk none "column" none (some "id") []]] []
        = pkLoop none [.mk none "primaryKey" none none
            [.mk none "column" none (some "id") []]] []) :=
  ⟨⟨by decide,
    (C9_pk_loop_first_nonempty_wins none _ _).1 (by decide)⟩,
   ⟨by decide,
    (C9_pk_loop_first_nonempty_wins none _ _).2 (by decide)⟩⟩

/-! ### C3: the zero-schemas outcome -/

/-- Outcome of a conversion run as observed by `main`: either `convert()`
returned normally (with the created-object counts that
`_create_sqlite_database` logs) or it raised, in which case `main`
prints an error and exits non-zero. -/
inductive ConvertResult
  | completed (tablesCreated viewsCreated : Nat)
  | failed (msg : String)
deriving DecidableEq, Repr

/-- Model of `_create_sqlite_database` after metadata parsing: with an
empty schema list it logs an error and *returns* (creating nothing);
otherwise it creates every table and view (each DDL statement is assumed
to be accepted by SQLite).  No code path raises. -/
def createSqliteDatabase (schemas : List SchemaInfo) : Nat × Nat :=
  if schemas.isEmpty then (0, 0)
  else ((schemas.map (fun s => s.tables.length)).sum,
        (schemas.map (fun s => s.views.length)).sum)

/-- Model of `convert()` from the point where `_parse_metadata` has
produced its schema list (`Except.error` stands for an exception raised
before that point, e.g. `metadata.xml not found`, which `convert`
re-raises): database creation and data import follow, and neither raises
on an empty schema list, so `convert` returns normally. -/
def convertAfterParse (parsed : Except String (List SchemaInfo)) : ConvertResult :=
  match parsed with
  | .error e => .failed e
  | .ok schemas =>
    let counts := createSqliteDatabase schemas
    .completed counts.1 counts.2

/-- The process exit signal `main` produces for a conversion outcome:
0 on normal return, 1 when `convert` raised. -/
def exitCodeFor : ConvertResult → Nat
  | .completed _ _ => 0
  | .failed _ => 1

/-- C3, counterexample: when metadata parsing yields zero schema
descriptors the run still returns normally and `main` exits 0 — there is
no `NoSchemasFound` failure signal, contradicting the claimed fatal
propagation (`_create_sqlite_database` merely logs
`No schemas found - cannot create database!` and returns). -/
theorem C3_cex_zero_schemas_exit_zero :
    exitCodeFor (convertAfterParse (.ok [])) = 0 := by
  rfl

/-- C3, amendment: with zero schema descriptors the converter skips
database creation (zero tables, zero views), the import loop is a no-op,
and the run completes reporting success with a zero exit signal — the
condition is handled as a logged degradation, not as a fatal error. -/
theorem C3_zero_schemas_completes_successfully :
    convertAfterParse (.ok []) = ConvertResult.completed 0 0 := by
  rfl

/-! ### C2: namespace-style invariance of the Metadata Model Builder

The three namespace styles of the claim are modelled from a common
namespace-free skeleton tree `t`:

* no namespace: the document is `t` itself and `ctx = none`;
* default namespace `u`: the document is `withNs u t` and, since
  `root.nsmap` then contains the `None` key, `ctx = some u`;
* prefixed-only namespace `u`: the document is again `withNs u t`, but
  `root.nsmap` has no `None` key, so `ns_prefix` stays empty and
  `ctx = none`.

The invariance between the first two styles holds for documents in which
no element carries non-empty, all-whitespace text (such text is truthy
for the `elements[0].text` test yet strips to the falsy `''`, making the
two styles take different fallback paths); the third style finds no
schema elements at all, which is the counterexample. -/

/-- No non-empty, all-whitespace text value. -/
def textOkB : Option String → Bool
  | none => true
  | some t => t == "" || pyStrip t != ""

mutual

/-- Regularity of a metadata skeleton: namespace-free and without
non-empty all-whitespace text nodes. -/
def goodMeta : XElem → Bool
  | .mk ns _ _ tx ch => ns == none && textOkB tx && goodMetaList ch

def goodMetaList : List XElem → Bool
  | [] => true
  | e :: es => goodMeta e && goodMetaList es

end

theorem withNs_tag (u : String) (e : XElem) : (withNs u e).tag = e.tag := by
  cases e; rfl

theorem withNs_text (u : String) (e : XElem) : (withNs u e).text = e.text := by
  cases e; rfl

theorem withNs_ns (u : String) (e : XElem) : (withNs u e).ns = some u := by
  cases e; rfl

theorem withNs_children (u : String) (e : XElem) :
    (withNs u e).children = withNsList u e.children := by
  cases e; rfl

theorem withNsList_eq_map (u : String) (l : List XElem) :
    withNsList u l = l.map (withNs u) := by
  induction l with
  | nil => rfl
  | cons e es ih => rw [withNsList, List.map_cons, ih]

mutual

theorem descendants_withNs (u : String) (e : XElem) :
    descendants (withNs u e) = (descendants e).map (withNs u) := by
  cases e with
  | mk ns tag nilA tx ch =>
    rw [withNs, descendants, descendants]
    exact descList_withNs u ch

theorem descList_withNs (u : String) (l : List XElem) :
    descList (withNsList u l) = (descList l).map (withNs u) := by
  cases l with
  | nil => rfl
  | cons e es =>
    rw [withNsList, descList, descList, List.map_cons, List.map_append]
    rw [descendants_withNs u e, descList_withNs u es]

end

theorem goodMeta_parts (ns : Option String) (tag : String)
    (nilA tx : Option String) (ch : List XElem)
    (h : goodMeta (.mk ns tag nilA tx ch) = true) :
    ns = none ∧ textOkB tx = true ∧ goodMetaList ch = true := by
  rw [goodMeta] at h
  simp only [Bool.and_eq_true, beq_iff_eq] at h
  exact ⟨h.1.1, h.1.2, h.2⟩

theorem goodMetaList_mem (l : List XElem) (h : goodMetaList l = true)
    (e : XElem) (he : e ∈ l) : goodMeta e = true := by
  induction l with
  | nil => cases he
  | cons a as ih =>
    rw [goodMetaList, Bool.and_eq_true] at h
    rcases List.mem_cons.mp he with rfl | he2
    · exact h.1
    · exact ih h.2 he2

theorem goodMeta_children_mem (e : XElem) (h : goodMeta e = true)
    (c : XElem) (hc : c ∈ e.children) : goodMeta c = true := by
  cases e with
  | mk ns tag nilA tx ch =>
    exact goodMetaList_mem ch (goodMeta_parts ns tag nilA tx ch h).2.2 c hc

theorem goodMeta_ns_none (e : XElem) (h : goodMeta e = true) : e.ns = none := by
  cases e with
  | mk ns tag nilA tx ch => exact (goodMeta_parts ns tag nilA tx ch h).1

theorem goodMeta_textOk (e : XElem) (h : goodMeta e = true) :
    textOkB e.text = true := by
  cases e with
  | mk ns tag nilA tx ch => exact (goodMeta_parts ns tag nilA tx ch h).2.1

mutual

theorem goodMeta_descendants (e : XElem) (h : goodMeta e = true) :
    ∀ d ∈ descendants e, goodMeta d = true := by
  cases e with
  | mk ns tag nilA tx ch =>
    rw [descendants]
    exact goodMetaList_descList ch (goodMeta_parts ns tag nilA tx ch h).2.2

theorem goodMetaList_descList (l : List XElem) (h : goodMetaList l = true) :
    ∀ d ∈ descList l, goodMeta d = true := by
  cases l with
  | nil => intro d hd; cases hd
  | cons e es =>
    rw [goodMetaList, Bool.and_eq_true] at h
    intro d hd
    rw [descList] at hd
    rcases List.mem_cons.mp hd with rfl | hd2
    · exact h.1
    · rcases List.mem_append.mp hd2 with hd3 | hd3
      · exact goodMeta_descendants e h.1 d hd3
      · exact goodMetaList_descList es h.2 d hd3

end

theorem elemsTextTruthy_map_withNs (u : String) (l : List XElem) :
    elemsTextTruthy (l.map (withNs u)) = elemsTextTruthy l := by
  cases l with
  | nil => rfl
  | cons x xs =>
    rw [List.map_cons, elemsTextTruthy, elemsTextTruthy, withNs_text]

theorem testElem_plain_withNs (ctx : Option String) (t : String) (u : String)
    (c : XElem) : testElem ctx (.plain t) (withNs u c) = false := by
  rw [testElem, withNs_ns]
  rfl

theorem testElem_qualified_withNs (u t : String) (c : XElem) :
    testElem (some u) (.qualified "siard" t) (withNs u c) = (c.tag == t) := by
  rw [testElem, withNs_ns, withNs_tag]
  simp

theorem testElem_anyLocal_withNs (ctx : Option String) (t : String) (u : String)
    (c : XElem) : testElem ctx (.anyLocal t) (withNs u c) = (c.tag == t) := by
  rw [testElem, withNs_tag]

theorem testElem_plain_nsFree (t : String) (c : XElem) (h : c.ns = none) :
    testElem none (.plain t) c = (c.tag == t) := by
  rw [testElem, h]
  simp

theorem filter_withNsList (u : String) (l : List XElem) (p q : XElem → Bool)
    (h : ∀ c ∈ l, p (withNs u c) = q c) :
    (withNsList u l).filter p = (l.filter q).map (withNs u) := by
  rw [withNsList_eq_map, List.filter_map]
  have : l.filter (p ∘ withNs u) = l.filter q :=
    List.filter_congr (fun c hc => h c hc)
  rw [this]

theorem siard_colon_data (f : String) :
    ("siard:" ++ f).data = 's' :: 'i' :: 'a' :: 'r' :: 'd' :: ':' :: f.data := rfl

theorem isPrefixOf_star_s (l : List Char) :
    List.isPrefixOf ("*[local-name()=\"".data) ('s' :: l) = false := rfl

theorem contains_colon_siard (f : String) :
    (("siard:" ++ f).data.contains ':') = true := rfl

theorem takeWhile_siard (f : String) :
    (("siard:" ++ f).data.takeWhile (fun c => c ≠ ':')) = "siard".data := rfl

theorem siard_ne_dot (f : String) : ("siard:" ++ f) ≠ "." := by
  intro h
  have h2 := congrArg String.data h
  rw [siard_colon_data] at h2
  have h3 : 's' = '.' := by
    have := List.head_eq_of_cons_eq h2
    exact this
  exact absurd h3 (by decide)

theorem not_mem_of_contains_false (l : List Char) (a : Char)
    (h : l.contains a = false) : ¬ a ∈ l := by
  simpa using h

theorem takeWhile_append_all (p : Char → Bool) (l1 l2 : List Char)
    (h : ∀ c ∈ l1, p c = true) :
    (l1 ++ l2).takeWhile p = l1 ++ l2.takeWhile p := by
  induction l1 with
  | nil => simp
  | cons a as ih =>
    rw [List.cons_append, List.takeWhile_cons, h a (by simp)]
    rw [if_pos rfl, ih (fun c hc => h c (by simp [hc]))]
    simp

theorem afterLastColon_siard (f : String) (hf : f.data.contains ':' = false) :
    afterLastColon (("siard:" ++ f).data) = f.data := by
  rw [afterLastColon, siard_colon_data]
  have hrev : ('s' :: 'i' :: 'a' :: 'r' :: 'd' :: ':' :: f.data).reverse
      = f.data.reverse ++ [':', 'd', 'r', 'a', 'i', 's'] := by
    simp
  rw [hrev]
  rw [takeWhile_append_all _ _ _ ?hall]
  case hall =>
    intro c hc
    have hmem : c ∈ f.data := List.mem_reverse.mp hc
    have hne : c ≠ ':' := by
      intro hcc
      exact not_mem_of_contains_false f.data ':' hf (hcc ▸ hmem)
    simp [hne]
  have hco : ([':', 'd', 'r', 'a', 'i', 's'] : List Char).takeWhile
      (fun c => c ≠ ':') = [] := rfl
  rw [hco, List.append_nil, List.reverse_reverse]

theorem parseNodeTest_siard (f : String) (hf : f.data.contains ':' = false) :
    parseNodeTest ("siard:" ++ f) = .qualified "siard" f := by
  rw [parseNodeTest]
  rw [show List.isPrefixOf ("*[local-name()=\"".data) (("siard:" ++ f).data) = false
    from by rw [siard_colon_data]; exact isPrefixOf_star_s _]
  rw [contains_colon_siard]
  simp only [Bool.false_eq_true, if_false, if_true]
  rw [takeWhile_siard, afterLastColon_siard f hf]

theorem parseNodeTest_plain (f : String)
    (h1 : List.isPrefixOf ("*[local-name()=\"".data) f.data = false)
    (h2 : f.data.contains ':' = false) :
    parseNodeTest f = .plain f := by
  rw [parseNodeTest, h1, h2]
  simp

theorem evalRel_qualified_decorated (u f : String) (e : XElem)
    (hf : f.data.contains ':' = false) :
    evalRel (some u) (withNs u e) ("siard:" ++ f)
      = (e.children.filter (fun c => c.tag == f)).map (withNs u) := by
  rw [evalRel, if_neg (siard_ne_dot f), parseNodeTest_siard f hf, withNs_children]
  exact filter_withNsList u e.children _ _
    (fun c _ => testElem_qualified_withNs u f c)

theorem evalRel_plain_decorated (ctx : Option String) (f u : String) (e : XElem)
    (hp : parseNodeTest f = .plain f) (hd : f ≠ ".") :
    evalRel ctx (withNs u e) f = [] := by
  rw [evalRel, if_neg hd, hp, withNs_children]
  have := filter_withNsList u e.children (testElem ctx (.plain f))
    (fun _ => false) (fun c _ => testElem_plain_withNs ctx f u c)
  rw [this, List.filter_false]
  rfl

theorem evalRel_plain_nsFree (f : String) (e : XElem) (hg : goodMeta e = true)
    (hp : parseNodeTest f = .plain f) (hd : f ≠ ".") :
    evalRel none e f = e.children.filter (fun c => c.tag == f) := by
  rw [evalRel, if_neg hd, hp]
  apply List.filter_congr
  intro c hc
  exact testElem_plain_nsFree f c (goodMeta_ns_none c (goodMeta_children_mem e hg c hc))

theorem evalRel_anyLocal_decorated (ctx : Option String) (t lit u : String)
    (e : XElem) (hl : parseNodeTest lit = .anyLocal t) (hd : lit ≠ ".") :
    evalRel ctx (withNs u e) lit
      = (e.children.filter (fun c => c.tag == t)).map (withNs u) := by
  rw [evalRel, if_neg hd, hl, withNs_children]
  exact filter_withNsList u e.children _ _
    (fun c _ => testElem_anyLocal_withNs ctx t u c)

theorem evalRel_anyLocal_plain (ctx : Option String) (t lit : String) (e : XElem)
    (hl : parseNodeTest lit = .anyLocal t) (hd : lit ≠ ".") :
    evalRel ctx e lit = e.children.filter (fun c => c.tag == t) := by
  rw [evalRel, if_neg hd, hl]
  rfl

theorem firstAltText_append (ctx : Option String) (e : XElem) (l1 l2 : List String) :
    firstAltText ctx e (l1 ++ l2)
      = match firstAltText ctx e l1 with
        | some r => some r
        | none => firstAltText ctx e l2 := by
  induction l1 with
  | nil => rfl
  | cons xp rest ih =>
    rw [List.cons_append]
    simp only [firstAltText]
    rw [ih]
    cases elemsTextTruthy (evalRel ctx e xp) <;> rfl

theorem firstAlt_duo_inv (u t lit : String) (e : XElem) (hg : goodMeta e = true)
    (hp : parseNodeTest t = .plain t) (hdt : t ≠ ".")
    (hl : parseNodeTest lit = .anyLocal t) (hdl : lit ≠ ".") :
    firstAltText (some u) (withNs u e) [t, lit] = firstAltText none e [t, lit] := by
  simp only [firstAltText]
  rw [evalRel_plain_decorated (some u) t u e hp hdt,
      evalRel_plain_nsFree t e hg hp hdt,
      evalRel_anyLocal_decorated (some u) t lit u e hl hdl,
      evalRel_anyLocal_plain none t lit e hl hdl,
      elemsTextTruthy_map_withNs]
  cases elemsTextTruthy (e.children.filter (fun c => c.tag == t)) <;> rfl

theorem firstAlt_quad_inv (u : String) (e : XElem) (hg : goodMeta e = true) :
    firstAltText (some u) (withNs u e)
        ["n", "*[local-name()=\"n\"]", "name", "*[local-name()=\"name\"]"]
      = firstAltText none e
        ["n", "*[local-name()=\"n\"]", "name", "*[local-name()=\"name\"]"] := by
  have hsplit :
      (["n", "*[local-name()=\"n\"]", "name", "*[local-name()=\"name\"]"] :
        List String)
      = ["n", "*[local-name()=\"n\"]"] ++ ["name", "*[local-name()=\"name\"]"] := rfl
  rw [hsplit, firstAltText_append, firstAltText_append,
      firstAlt_duo_inv u "n" _ e hg (by decide) (by decide) (by decide) (by decide),
      firstAlt_duo_inv u "name" _ e hg (by decide) (by decide) (by decide)
        (by decide)]

theorem lastResort_inv (xpA xpB : String) (u : String) (l : List XElem)
    (hn : xpEndsWith xpA "n" = xpEndsWith xpB "n")
    (hname : xpEndsWith xpA "name" = xpEndsWith xpB "name")
    (htype : xpEndsWith xpA "type" = xpEndsWith xpB "type")
    (hnul : xpEndsWith xpA "nullable" = xpEndsWith xpB "nullable") :
    lastResortChildren xpA (withNsList u l) = lastResortChildren xpB l := by
  induction l with
  | nil => rfl
  | cons c cs ih =>
    rw [withNsList]
    simp only [lastResortChildren, withNs_tag, withNs_text, hn, hname, htype,
      hnul, ih]

theorem elemsTextTruthy_not_blank (l : List XElem)
    (h : ∀ x ∈ l, textOkB x.text = true) :
    elemsTextTruthy l = none ∨ optTruthy (elemsTextTruthy l) = true := by
  cases l with
  | nil => exact Or.inl rfl
  | cons x xs =>
    rw [elemsTextTruthy]
    cases hx : x.text with
    | none => exact Or.inl rfl
    | some t =>
      have hred : (match some t with
          | none => (none : Option String)
          | some t => if t = "" then none else some (pyStrip t))
          = if t = "" then none else some (pyStrip t) := rfl
      rw [hred]
      by_cases ht : t = ""
      · rw [if_pos ht]; exact Or.inl rfl
      · rw [if_neg ht]
        right
        have htx := h x (by simp)
        rw [hx, textOkB] at htx
        simp only [Bool.or_eq_true, beq_iff_eq, bne_iff_ne] at htx
        rcases htx with h1 | h1
        · exact absurd h1 ht
        · simpa [optTruthy] using h1

theorem evalRel_mem_textOk (ctx : Option String) (e : XElem) (xp : String)
    (hg : goodMeta e = true) :
    ∀ x ∈ evalRel ctx e xp, textOkB x.text = true := by
  intro x hx
  rw [evalRel] at hx
  by_cases hd : xp = "."
  · rw [if_pos hd] at hx
    simp at hx
    rw [hx]
    exact goodMeta_textOk e hg
  · rw [if_neg hd] at hx
    exact goodMeta_textOk x (goodMeta_children_mem e hg x (List.mem_of_mem_filter hx))

theorem firstAltText_not_blank (ctx : Option String) (e : XElem)
    (hg : goodMeta e = true) (alts : List String) :
    firstAltText ctx e alts = none ∨ optTruthy (firstAltText ctx e alts) = true := by
  induction alts with
  | nil => exact Or.inl rfl
  | cons xp rest ih =>
    simp only [firstAltText]
    have hx := elemsTextTruthy_not_blank (evalRel ctx e xp)
      (evalRel_mem_textOk ctx e xp hg)
    cases hval : elemsTextTruthy (evalRel ctx e xp) with
    | none => exact ih
    | some r =>
      right
      rw [hval] at hx
      rcases hx with h1 | h1
      · cases h1
      · exact h1

theorem textBranch_not_blank (c : XElem) (hc : textOkB c.text = true)
    (alt : Option String) (halt : alt = none ∨ optTruthy alt = true) :
    (match c.text with
     | some t => if t = "" then alt else some (pyStrip t)
     | none => alt) = none ∨
    optTruthy (match c.text with
     | some t => if t = "" then alt else some (pyStrip t)
     | none => alt) = true := by
  cases hx : c.text with
  | none => exact halt
  | some t =>
    have hred : (match some t with
        | some t => if t = "" then alt else some (pyStrip t)
        | none => alt)
        = if t = "" then alt else some (pyStrip t) := rfl
    rw [hred]
    by_cases ht : t = ""
    · rw [if_pos ht]; exact halt
    · rw [if_neg ht]
      right
      rw [hx, textOkB] at hc
      simp only [Bool.or_eq_true, beq_iff_eq, bne_iff_ne] at hc
      rcases hc with h1 | h1
      · exact absurd h1 ht
      · simpa [optTruthy] using h1

theorem lastResort_not_blank (xp : String) (l : List XElem)
    (h : ∀ x ∈ l, textOkB x.text = true) :
    lastResortChildren xp l = none ∨
    optTruthy (lastResortChildren xp l) = true := by
  induction l with
  | nil => exact Or.inl rfl
  | cons c cs ih =>
    have hc := h c (by simp)
    have ihs := ih (fun x hx => h x (by simp [hx]))
    simp only [lastResortChildren]
    by_cases h1 : ((c.tag == "n" || c.tag == "name") &&
        (xpEndsWith xp "n" || xpEndsWith xp "name")) = true
    · rw [if_pos h1]
      exact textBranch_not_blank c hc _ ihs
    · rw [if_neg h1]
      by_cases h2 : (c.tag == "type" && xpEndsWith xp "type") = true
      · rw [if_pos h2]
        exact textBranch_not_blank c hc _ ihs
      · rw [if_neg h2]
        by_cases h3 : (c.tag == "nullable" && xpEndsWith xp "nullable") = true
        · rw [if_pos h3]
          exact textBranch_not_blank c hc _ ihs
        · rw [if_neg h3]
          exact ihs

theorem getElementText_none_or_truthy (ctx : Option String) (e : XElem)
    (xp : String) (hg : goodMeta e = true) :
    getElementText ctx e xp = none ∨
    optTruthy (getElementText ctx e xp) = true := by
  rw [getElementText]
  cases h1 : elemsTextTruthy (evalRel ctx e xp) with
  | some r =>
    right
    have := elemsTextTruthy_not_blank (evalRel ctx e xp)
      (evalRel_mem_textOk ctx e xp hg)
    rw [h1] at this
    rcases this with h2 | h2
    · cases h2
    · exact h2
  | none =>
    cases h2 : firstAltText ctx e (altListFor xp) with
    | some r =>
      right
      have := firstAltText_not_blank ctx e hg (altListFor xp)
      rw [h2] at this
      rcases this with h3 | h3
      · cases h3
      · exact h3
    | none =>
      have hch : ∀ x ∈ e.children, textOkB x.text = true := fun x hx =>
        goodMeta_textOk x (goodMeta_children_mem e hg x hx)
      exact lastResort_not_blank xp e.children hch

theorem getElementText_inv (u f : String) (e : XElem) (hg : goodMeta e = true)
    (hfc : f.data.contains ':' = false)
    (hp : parseNodeTest f = .plain f)
    (hfd : f ≠ ".")
    (halt : altListFor ("siard:" ++ f) = altListFor f)
    (halts : firstAltText (some u) (withNs u e) (altListFor f)
        = firstAltText none e (altListFor f) ∨ altListFor f = [f])
    (hn : xpEndsWith ("siard:" ++ f) "n" = xpEndsWith f "n")
    (hname : xpEndsWith ("siard:" ++ f) "name" = xpEndsWith f "name")
    (htype : xpEndsWith ("siard:" ++ f) "type" = xpEndsWith f "type")
    (hnul : xpEndsWith ("siard:" ++ f) "nullable" = xpEndsWith f "nullable") :
    getElementText (some u) (withNs u e) ("siard:" ++ f)
      = getElementText none e f := by
  rw [getElementText, getElementText]
  rw [evalRel_qualified_decorated u f e hfc, elemsTextTruthy_map_withNs,
      evalRel_plain_nsFree f e hg hp hfd, halt]
  have hlast : lastResortChildren ("siard:" ++ f) (withNs u e).children
      = lastResortChildren f e.children := by
    rw [withNs_children]
    exact lastResort_inv _ f u e.children hn hname htype hnul
  cases hT : elemsTextTruthy (e.children.filter (fun c => c.tag == f)) with
  | some r => rfl
  | none =>
    rcases halts with h | h
    · rw [h, hlast]
    · rw [h]
      have hdec : firstAltText (some u) (withNs u e) [f] = none := by
        simp only [firstAltText]
        rw [evalRel_plain_decorated (some u) f u e hp hfd]
        rfl
      have hnone : firstAltText none e [f] = none := by
        simp only [firstAltText]
        rw [evalRel_plain_nsFree f e hg hp hfd, hT]
      rw [hdec, hnone, hlast]

theorem getElementText_plain_decorated_none (u f : String) (e : XElem)
    (hg : goodMeta e = true)
    (hp : parseNodeTest f = .plain f) (hfd : f ≠ ".")
    (halts : firstAltText (some u) (withNs u e) (altListFor f)
        = firstAltText none e (altListFor f) ∨ altListFor f = [f])
    (hB : getElementText none e f = none) :
    getElementText (some u) (withNs u e) f = none := by
  rw [getElementText] at hB
  rw [evalRel_plain_nsFree f e hg hp hfd] at hB
  rw [getElementText, evalRel_plain_decorated (some u) f u e hp hfd]
  have h0 : elemsTextTruthy ([] : List XElem) = none := rfl
  rw [h0]
  cases hT : elemsTextTruthy (e.children.filter (fun c => c.tag == f)) with
  | some r =>
    rw [hT] at hB
    exact Option.noConfusion hB
  | none =>
    rw [hT] at hB
    cases hA : firstAltText none e (altListFor f) with
    | some r =>
      rw [hA] at hB
      exact Option.noConfusion hB
    | none =>
      rw [hA] at hB
      have hBlast : lastResortChildren f e.children = none := hB
      rcases halts with h | h
      · rw [h, hA]
        show lastResortChildren f (withNs u e).children = none
        rw [withNs_children, lastResort_inv f f u e.children rfl rfl rfl rfl]
        exact hBlast
      · rw [h]
        have hdec : firstAltText (some u) (withNs u e) [f] = none := by
          simp only [firstAltText]
          rw [evalRel_plain_decorated (some u) f u e hp hfd]
          rfl
        rw [hdec]
        show lastResortChildren f (withNs u e).children = none
        rw [withNs_children, lastResort_inv f f u e.children rfl rfl rfl rfl]
        exact hBlast

theorem string_empty_append (f : String) : ("" : String) ++ f = f := by
  cases f
  rfl

theorem lookupField_none_eq (e : XElem) (f : String) :
    lookupField none e f = getElementText none e f := by
  rw [lookupField]
  have h1 : nsPrefixStr none ++ f = f := by
    rw [nsPrefixStr]
    simp only [Option.isSome_none, Bool.false_eq_true, if_false]
    exact string_empty_append f
  rw [h1]
  by_cases h : optTruthy (getElementText none e f) = true
  · rw [if_pos h]
  · rw [if_neg h]

theorem lookupField_inv_field (u f : String) (e : XElem) (hg : goodMeta e = true)
    (hfc : f.data.contains ':' = false)
    (hp : parseNodeTest f = .plain f)
    (hfd : f ≠ ".")
    (halt : altListFor ("siard:" ++ f) = altListFor f)
    (hn : xpEndsWith ("siard:" ++ f) "n" = xpEndsWith f "n")
    (hname : xpEndsWith ("siard:" ++ f) "name" = xpEndsWith f "name")
    (htype : xpEndsWith ("siard:" ++ f) "type" = xpEndsWith f "type")
    (hnul : xpEndsWith ("siard:" ++ f) "nullable" = xpEndsWith f "nullable")
    (halts : firstAltText (some u) (withNs u e) (altListFor f)
        = firstAltText none e (altListFor f) ∨ altListFor f = [f]) :
    lookupField (some u) (withNs u e) f = lookupField none e f := by
  rw [lookupField_none_eq]
  rw [lookupField]
  have hpfx : nsPrefixStr (some u) = "siard:" := rfl
  rw [hpfx]
  rw [getElementText_inv u f e hg hfc hp hfd halt halts hn hname htype hnul]
  by_cases hB : optTruthy (getElementText none e f) = true
  · rw [if_pos hB]
  · rw [if_neg hB]
    have hBn : getElementText none e f = none := by
      rcases getElementText_none_or_truthy none e f hg with h | h
      · exact h
      · exact absurd h hB
    rw [hBn]
    exact getElementText_plain_decorated_none u f e hg hp hfd halts hBn

theorem lookupField_inv_n (u : String) (e : XElem) (hg : goodMeta e = true) :
    lookupField (some u) (withNs u e) "n" = lookupField none e "n" :=
  lookupField_inv_field u "n" e hg (by decide) (by decide) (by decide) (by decide)
    (by decide) (by decide) (by decide) (by decide)
    (Or.inl (by
      rw [show altListFor "n"
          = ["n", "*[local-name()=\"n\"]", "name", "*[local-name()=\"name\"]"]
        from by decide]
      exact firstAlt_quad_inv u e hg))

theorem lookupField_inv_column (u : String) (e : XElem) (hg : goodMeta e = true) :
    lookupField (some u) (withNs u e) "column" = lookupField none e "column" :=
  lookupField_inv_field u "column" e hg (by decide) (by decide) (by decide)
    (by decide) (by decide) (by decide) (by decide) (by decide)
    (Or.inl (by
      rw [show altListFor "column"
          = ["n", "*[local-name()=\"n\"]", "name", "*[local-name()=\"name\"]"]
        from by decide]
      exact firstAlt_quad_inv u e hg))

theorem lookupField_inv_type (u : String) (e : XElem) (hg : goodMeta e = true) :
    lookupField (some u) (withNs u e) "type" = lookupField none e "type" :=
  lookupField_inv_field u "type" e hg (by decide) (by decide) (by decide)
    (by decide) (by decide) (by decide) (by decide) (by decide)
    (Or.inl (by
      rw [show altListFor "type" = ["type", "*[local-name()=\"type\"]"]
        from by decide]
      exact firstAlt_duo_inv u "type" "*[local-name()=\"type\"]" e hg
        (by decide) (by decide) (by decide) (by decide)))

theorem lookupField_inv_nullable (u : String) (e : XElem)
    (hg : goodMeta e = true) :
    lookupField (some u) (withNs u e) "nullable" = lookupField none e "nullable" :=
  lookupField_inv_field u "nullable" e hg (by decide) (by decide) (by decide)
    (by decide) (by decide) (by decide) (by decide) (by decide)
    (Or.inl (by
      rw [show altListFor "nullable" = ["nullable", "*[local-name()=\"nullable\"]"]
        from by decide]
      exact firstAlt_duo_inv u "nullable" "*[local-name()=\"nullable\"]" e hg
        (by decide) (by decide) (by decide) (by decide)))

theorem lookupField_inv_folder (u : String) (e : XElem) (hg : goodMeta e = true) :
    lookupField (some u) (withNs u e) "folder" = lookupField none e "folder" :=
  lookupField_inv_field u "folder" e hg (by decide) (by decide) (by decide)
    (by decide) (by decide) (by decide) (by decide) (by decide)
    (Or.inl (by
      rw [show altListFor "folder" = ["folder", "*[local-name()=\"folder\"]"]
        from by decide]
      exact firstAlt_duo_inv u "folder" "*[local-name()=\"folder\"]" e hg
        (by decide) (by decide) (by decide) (by decide)))

theorem lookupField_inv_referenced (u : String) (e : XElem)
    (hg : goodMeta e = true) :
    lookupField (some u) (withNs u e) "referenced"
      = lookupField none e "referenced" :=
  lookupField_inv_field u "referenced" e hg (by decide) (by decide) (by decide)
    (by decide) (by decide) (by decide) (by decide) (by decide)
    (Or.inr (by decide))

theorem lookupField_inv_referencedSchema (u : String) (e : XElem)
    (hg : goodMeta e = true) :
    lookupField (some u) (withNs u e) "referencedSchema"
      = lookupField none e "referencedSchema" :=
  lookupField_inv_field u "referencedSchema" e hg (by decide) (by decide)
    (by decide) (by decide) (by decide) (by decide) (by decide) (by decide)
    (Or.inr (by decide))

theorem lookupField_inv_referencedTable (u : String) (e : XElem)
    (hg : goodMeta e = true) :
    lookupField (some u) (withNs u e) "referencedTable"
      = lookupField none e "referencedTable" :=
  lookupField_inv_field u "referencedTable" e hg (by decide) (by decide)
    (by decide) (by decide) (by decide) (by decide) (by decide) (by decide)
    (Or.inr (by decide))

theorem getText_inv_query (u : String) (e : XElem) (hg : goodMeta e = true) :
    getElementText (some u) (withNs u e) ("siard:" ++ "query")
      = getElementText none e "query" :=
  getElementText_inv u "query" e hg (by decide) (by decide) (by decide)
    (by decide) (Or.inr (by decide)) (by decide) (by decide) (by decide)
    (by decide)

theorem getText_inv_queryOriginal (u : String) (e : XElem)
    (hg : goodMeta e = true) :
    getElementText (some u) (withNs u e) ("siard:" ++ "queryOriginal")
      = getElementText none e "queryOriginal" :=
  getElementText_inv u "queryOriginal" e hg (by decide) (by decide) (by decide)
    (by decide) (Or.inr (by decide)) (by decide) (by decide) (by decide)
    (by decide)

theorem getText_inv_description (u : String) (e : XElem)
    (hg : goodMeta e = true) :
    getElementText (some u) (withNs u e) ("siard:" ++ "description")
      = getElementText none e "description" :=
  getElementText_inv u "description" e hg (by decide) (by decide) (by decide)
    (by decide)
    (Or.inl (by
      rw [show altListFor "description"
          = ["n", "*[local-name()=\"n\"]", "name", "*[local-name()=\"name\"]"]
        from by decide]
      exact firstAlt_quad_inv u e hg))
    (by decide) (by decide) (by decide) (by decide)

theorem getTextDec_query_none (u : String) (e : XElem) (hg : goodMeta e = true)
    (hB : getElementText none e "query" = none) :
    getElementText (some u) (withNs u e) "query" = none :=
  getElementText_plain_decorated_none u "query" e hg (by decide) (by decide)
    (Or.inr (by decide)) hB

theorem getTextDec_queryOriginal_none (u : String) (e : XElem)
    (hg : goodMeta e = true)
    (hB : getElementText none e "queryOriginal" = none) :
    getElementText (some u) (withNs u e) "queryOriginal" = none :=
  getElementText_plain_decorated_none u "queryOriginal" e hg (by decide)
    (by decide) (Or.inr (by decide)) hB

theorem getTextDec_description_none (u : String) (e : XElem)
    (hg : goodMeta e = true)
    (hB : getElementText none e "description" = none) :
    getElementText (some u) (withNs u e) "description" = none :=
  getElementText_plain_decorated_none u "description" e hg (by decide)
    (by decide)
    (Or.inl (by
      rw [show altListFor "description"
          = ["n", "*[local-name()=\"n\"]", "name", "*[local-name()=\"name\"]"]
        from by decide]
      exact firstAlt_quad_inv u e hg))
    hB

theorem dropLast_pair (l : List Char) : ((l ++ ['"', ']']).dropLast).dropLast = l := by
  have h1 : (l ++ ['"', ']']) = (l ++ ['"']) ++ [']'] := by simp
  rw [h1, List.dropLast_concat, List.dropLast_concat]

theorem localShape_data (name : String) :
    ("*[local-name()=\"" ++ name ++ "\"]").data
      = "*[local-name()=\"".data ++ (name.data ++ ['"', ']']) := by
  rw [String.data_append, String.data_append]
  rfl

theorem parseNodeTest_localShape (name : String) :
    parseNodeTest ("*[local-name()=\"" ++ name ++ "\"]") = .anyLocal name := by
  rw [parseNodeTest]
  rw [if_pos (by
    rw [localShape_data]
    exact List.isPrefixOf_iff_prefix.mpr (List.prefix_append _ _) :
    List.isPrefixOf ("*[local-name()=\"".data)
      (("*[local-name()=\"" ++ name ++ "\"]").data) = true)]
  have hd : (("*[local-name()=\"" ++ name ++ "\"]").data.drop 16)
      = name.data ++ ['"', ']'] := by
    rw [localShape_data]
    rfl
  rw [hd, dropLast_pair]

theorem getElementText_dot_inv (u : String) (ctx : Option String) (e : XElem) :
    getElementText ctx (withNs u e) "." = getElementText none e "." := by
  rw [getElementText, getElementText]
  have h1 : evalRel ctx (withNs u e) "." = [withNs u e] := by
    rw [evalRel, if_pos rfl]
  have h2 : evalRel none e "." = [e] := by
    rw [evalRel, if_pos rfl]
  have h3 : elemsTextTruthy [withNs u e] = elemsTextTruthy [e] := by
    rw [elemsTextTruthy, elemsTextTruthy, withNs_text]
  rw [h1, h2, h3]
  have ha : altListFor "." = ["."] := by decide
  rw [ha]
  have h4 : firstAltText ctx (withNs u e) ["."] = firstAltText none e ["."] := by
    simp only [firstAltText]
    rw [h1, h2, h3]
  rw [h4]
  have h5 : lastResortChildren "." (withNs u e).children
      = lastResortChildren "." e.children := by
    rw [withNs_children]
    exact lastResort_inv "." "." u e.children rfl rfl rfl rfl
  rw [h5]

theorem foldl_congr_mem {α β : Type} (l : List α) (f g : β → α → β) (b : β)
    (h : ∀ a ∈ l, ∀ acc, f acc a = g acc a) : l.foldl f b = l.foldl g b := by
  induction l generalizing b with
  | nil => rfl
  | cons a as ih =>
    rw [List.foldl_cons, List.foldl_cons, h a (by simp)]
    exact ih _ (fun x hx acc => h x (by simp [hx]) acc)

theorem filterMap_congr_mem {α β : Type} (l : List α) (f g : α → Option β)
    (h : ∀ a ∈ l, f a = g a) : l.filterMap f = l.filterMap g := by
  induction l with
  | nil => rfl
  | cons a as ih =>
    rw [List.filterMap_cons, List.filterMap_cons, h a (by simp),
      ih (fun x hx => h x (by simp [hx]))]

theorem findElements_inv (u name : String) (e : XElem) (hg : goodMeta e = true)
    (hfc : name.data.contains ':' = false)
    (hp : parseNodeTest name = .plain name) :
    findElements (some u) (withNs u e) name
      = (findElements none e name).map (withNs u) := by
  rw [findElements, findElements]
  have hs1 : String.mk (((".//" ++ nsPrefixStr (some u) ++ name)).data.drop 3)
      = "siard:" ++ name := rfl
  have hs2 : String.mk (((".//" ++ name)).data.drop 3) = name := rfl
  have hs3 : String.mk (((".//*[local-name()=\"" ++ name ++ "\"]")).data.drop 3)
      = "*[local-name()=\"" ++ name ++ "\"]" := rfl
  have hs4 : String.mk (((".//" ++ nsPrefixStr none ++ name)).data.drop 3)
      = name := rfl
  have hD : descendants (withNs u e) = (descendants e).map (withNs u) :=
    descendants_withNs u e
  have hgd : ∀ d ∈ descendants e, goodMeta d = true := goodMeta_descendants e hg
  have ho1 : evalDescStr (some u) (withNs u e)
      (".//" ++ nsPrefixStr (some u) ++ name)
      = ((descendants e).filter (fun c => c.tag == name)).map (withNs u) := by
    rw [evalDescStr, hs1, parseNodeTest_siard name hfc, hD, List.filter_map]
    congr 1
    apply List.filter_congr
    intro c _
    exact testElem_qualified_withNs u name c
  have ho2 : evalDescStr (some u) (withNs u e) (".//" ++ name) = [] := by
    rw [evalDescStr, hs2, hp, hD, List.filter_map]
    have : (descendants e).filter ((testElem (some u) (.plain name)) ∘ withNs u)
        = [] := by
      rw [List.filter_eq_nil_iff]
      intro a _
      show ¬ (testElem (some u) (.plain name) (withNs u a) = true)
      rw [testElem_plain_withNs]
      decide
    rw [this]
    rfl
  have ho3 : evalDescStr (some u) (withNs u e)
      (".//*[local-name()=\"" ++ name ++ "\"]")
      = ((descendants e).filter (fun c => c.tag == name)).map (withNs u) := by
    rw [evalDescStr, hs3, parseNodeTest_localShape name, hD, List.filter_map]
    congr 1
    apply List.filter_congr
    intro c _
    exact testElem_anyLocal_withNs (some u) name u c
  have hn1 : evalDescStr none e (".//" ++ nsPrefixStr none ++ name)
      = (descendants e).filter (fun c => c.tag == name) := by
    rw [evalDescStr, hs4, hp]
    apply List.filter_congr
    intro c hc
    exact testElem_plain_nsFree name c (goodMeta_ns_none c (hgd c hc))
  have hn2 : evalDescStr none e (".//" ++ name)
      = (descendants e).filter (fun c => c.tag == name) := by
    rw [evalDescStr, hs2, hp]
    apply List.filter_congr
    intro c hc
    exact testElem_plain_nsFree name c (goodMeta_ns_none c (hgd c hc))
  have hn3 : evalDescStr none e (".//*[local-name()=\"" ++ name ++ "\"]")
      = (descendants e).filter (fun c => c.tag == name) := by
    rw [evalDescStr, hs3, parseNodeTest_localShape name]
    rfl
  rw [ho1, ho2, ho3, hn1, hn2, hn3]
  by_cases hS : ((descendants e).filter (fun c => c.tag == name)).isEmpty = true
  · have hSe : (descendants e).filter (fun c => c.tag == name) = [] :=
      List.isEmpty_iff.mp hS
    rw [hSe]
    rfl
  · have hmapne : ¬ (((descendants e).filter
        (fun c => c.tag == name)).map (withNs u)).isEmpty = true := by
      intro hcon
      exact hS (by
        rw [List.isEmpty_iff] at hcon ⊢
        exact List.map_eq_nil_iff.mp hcon)
    have hL : firstNonEmptyElems
        [((descendants e).filter (fun c => c.tag == name)).map (withNs u), [],
         ((descendants e).filter (fun c => c.tag == name)).map (withNs u)]
        = ((descendants e).filter (fun c => c.tag == name)).map (withNs u) := by
      rw [firstNonEmptyElems, if_neg hmapne]
    have hR : firstNonEmptyElems
        [(descendants e).filter (fun c => c.tag == name),
         (descendants e).filter (fun c => c.tag == name),
         (descendants e).filter (fun c => c.tag == name)]
        = (descendants e).filter (fun c => c.tag == name) := by
      rw [firstNonEmptyElems, if_neg hS]
    rw [hL, hR]

theorem firstNonEmptyElems_mem (ls : List (List XElem)) (x : XElem)
    (hx : x ∈ firstNonEmptyElems ls) : ∃ l ∈ ls, x ∈ l := by
  induction ls with
  | nil => cases hx
  | cons l rest ih =>
    rw [firstNonEmptyElems] at hx
    by_cases he : l.isEmpty = true
    · rw [if_pos he] at hx
      rcases ih hx with ⟨l2, hl2, hx2⟩
      exact ⟨l2, by simp [hl2], hx2⟩
    · rw [if_neg he] at hx
      exact ⟨l, by simp, hx⟩

theorem mem_findElements (ctx : Option String) (e : XElem) (name : String)
    (x : XElem) (hx : x ∈ findElements ctx e name) : x ∈ descendants e := by
  rw [findElements] at hx
  rcases firstNonEmptyElems_mem _ x hx with ⟨l, hl, hx2⟩
  simp only [List.mem_cons, List.mem_singleton] at hl
  rcases hl with rfl | rfl | rfl | h
  · exact List.mem_of_mem_filter hx2
  · exact List.mem_of_mem_filter hx2
  · exact List.mem_of_mem_filter hx2
  · cases h

theorem parseColumn_inv (u : String) (e : XElem) (hg : goodMeta e = true) :
    parseColumn (some u) (withNs u e) = parseColumn none e := by
  rw [parseColumn, parseColumn, lookupField_inv_n u e hg,
    lookupField_inv_type u e hg, lookupField_inv_nullable u e hg]

theorem parseForeignKey_inv (u : String) (e : XElem) (hg : goodMeta e = true) :
    parseForeignKey (some u) (withNs u e) = parseForeignKey none e := by
  rw [parseForeignKey, parseForeignKey, lookupField_inv_n u e hg,
    lookupField_inv_referencedSchema u e hg,
    lookupField_inv_referencedTable u e hg,
    findElements_inv u "reference" e hg (by decide) (by decide),
    List.foldl_map]
  have hfold :
      (findElements none e "reference").foldl
        (fun (x : List String × List String) y =>
          let src := lookupField (some u) (withNs u y) "column"
          let tgt := lookupField (some u) (withNs u y) "referenced"
          ((if optTruthy src then x.1 ++ [sanitizeName (src.getD "")] else x.1),
           (if optTruthy tgt then x.2 ++ [sanitizeName (tgt.getD "")] else x.2)))
        ([], [])
      = (findElements none e "reference").foldl
        (fun (x : List String × List String) y =>
          let src := lookupField none y "column"
          let tgt := lookupField none y "referenced"
          ((if optTruthy src then x.1 ++ [sanitizeName (src.getD "")] else x.1),
           (if optTruthy tgt then x.2 ++ [sanitizeName (tgt.getD "")] else x.2)))
        ([], []) := by
    apply foldl_congr_mem
    intro r hr acc
    have hgr : goodMeta r = true :=
      goodMeta_descendants e hg r (mem_findElements none e "reference" r hr)
    simp only [lookupField_inv_column u r hgr, lookupField_inv_referenced u r hgr]
  rw [hfold]

theorem pkColumnsOf_inv (u : String) (pk : XElem) (hg : goodMeta pk = true)
    (acc : List String) :
    pkColumnsOf (some u) (withNs u pk) acc = pkColumnsOf none pk acc := by
  rw [pkColumnsOf, pkColumnsOf,
    findElements_inv u "column" pk hg (by decide) (by decide), List.foldl_map]
  apply foldl_congr_mem
  intro ce _ acc2
  rw [getElementText_dot_inv u (some u) ce]

theorem pkLoop_inv (u : String) (l : List XElem)
    (hl : ∀ x ∈ l, goodMeta x = true) (acc : List String) :
    pkLoop (some u) (l.map (withNs u)) acc = pkLoop none l acc := by
  induction l generalizing acc with
  | nil => rfl
  | cons pk rest ih =>
    rw [List.map_cons, pkLoop, pkLoop,
      pkColumnsOf_inv u pk (hl pk (by simp)) acc]
    by_cases h : (pkColumnsOf none pk acc).isEmpty = true
    · rw [if_pos h, if_pos h]
      exact ih (fun x hx => hl x (by simp [hx])) _
    · rw [if_neg h, if_neg h]

theorem parseTable_inv (u : String) (e : XElem) (hg : goodMeta e = true)
    (idx : Nat) :
    parseTable (some u) (withNs u e) idx = parseTable none e idx := by
  simp only [parseTable]
  rw [lookupField_inv_n u e hg,
    findElements_inv u "column" e hg (by decide) (by decide),
    findElements_inv u "primaryKey" e hg (by decide) (by decide),
    findElements_inv u "foreignKey" e hg (by decide) (by decide),
    List.filterMap_map, List.filterMap_map]
  have hcols : (findElements none e "column").filterMap
      ((parseColumn (some u)) ∘ (withNs u))
      = (findElements none e "column").filterMap (parseColumn none) := by
    apply filterMap_congr_mem
    intro c hc
    exact parseColumn_inv u c
      (goodMeta_descendants e hg c (mem_findElements none e "column" c hc))
  have hfks : (findElements none e "foreignKey").filterMap
      ((parseForeignKey (some u)) ∘ (withNs u))
      = (findElements none e "foreignKey").filterMap (parseForeignKey none) := by
    apply filterMap_congr_mem
    intro c hc
    exact parseForeignKey_inv u c
      (goodMeta_descendants e hg c (mem_findElements none e "foreignKey" c hc))
  have hpk : pkLoop (some u) ((findElements none e "primaryKey").map (withNs u)) []
      = pkLoop none (findElements none e "primaryKey") [] := by
    apply pkLoop_inv
    intro x hx
    exact goodMeta_descendants e hg x (mem_findElements none e "primaryKey" x hx)
  have hmapne : ((findElements none e "column").map (withNs u)).isEmpty
      = (findElements none e "column").isEmpty := by
    cases findElements none e "column" <;> rfl
  rw [hcols, hfks, hpk, hmapne]

theorem parseView_inv (u : String) (e : XElem) (hg : goodMeta e = true) :
    parseView (some u) (withNs u e) = parseView none e := by
  simp only [parseView]
  rw [lookupField_inv_n u e hg,
    findElements_inv u "column" e hg (by decide) (by decide),
    List.filterMap_map]
  have hcols : (findElements none e "column").filterMap
      ((parseColumn (some u)) ∘ (withNs u))
      = (findElements none e "column").filterMap (parseColumn none) := by
    apply filterMap_congr_mem
    intro c hc
    exact parseColumn_inv u c
      (goodMeta_descendants e hg c (mem_findElements none e "column" c hc))
  rw [hcols]
  have hpfx : nsPrefixStr (some u) = "siard:" := rfl
  have hpfxn : nsPrefixStr none = "" := rfl
  rw [hpfx, hpfxn, string_empty_append, string_empty_append,
    string_empty_append]
  rw [getText_inv_query u e hg, getText_inv_queryOriginal u e hg,
    getText_inv_description u e hg]
  by_cases hname : (!optTruthy (lookupField none e "n")) = true
  · rw [if_pos hname, if_pos hname]
  · rw [if_neg hname, if_neg hname]
    congr 1
    congr 1
    · -- query chain
      by_cases hbq : optTruthy (getElementText none e "query") = true
      · simp [hbq]
      · have hbq2 : optTruthy (getElementText none e "query") = false :=
          Bool.eq_false_iff.mpr hbq
        have hBqn : getElementText none e "query" = none := by
          rcases getElementText_none_or_truthy none e "query" hg with h | h
          · exact h
          · exact absurd h hbq
        have hdec := getTextDec_query_none u e hg hBqn
        have hopt : optTruthy none = false := rfl
        by_cases hqo : optTruthy (getElementText none e "queryOriginal") = true
        · simp only [hbq2, Bool.false_eq_true, if_false, hBqn, hdec, hopt,
            hqo, if_true]
        · have hqo2 : optTruthy (getElementText none e "queryOriginal") = false :=
            Bool.eq_false_iff.mpr hqo
          have hBqon : getElementText none e "queryOriginal" = none := by
            rcases getElementText_none_or_truthy none e "queryOriginal" hg
              with h | h
            · exact h
            · exact absurd h hqo
          have hdeco := getTextDec_queryOriginal_none u e hg hBqon
          simp only [hbq2, Bool.false_eq_true, if_false, hBqn, hdec, hopt,
            hqo2, hBqon, hdeco]
    · -- description chain
      by_cases hbd : optTruthy (getElementText none e "description") = true
      · simp [hbd]
      · have hbd2 : optTruthy (getElementText none e "description") = false :=
          Bool.eq_false_iff.mpr hbd
        have hBdn : getElementText none e "description" = none := by
          rcases getElementText_none_or_truthy none e "description" hg with h | h
          · exact h
          · exact absurd h hbd
        have hdecd := getTextDec_description_none u e hg hBdn
        simp only [hbd2, Bool.false_eq_true, if_false, hBdn, hdecd]

theorem parseSchema_inv (u : String) (e : XElem) (hg : goodMeta e = true) :
    parseSchema (some u) (withNs u e) = parseSchema none e := by
  simp only [parseSchema]
  rw [lookupField_inv_n u e hg, lookupField_inv_folder u e hg,
    findElements_inv u "table" e hg (by decide) (by decide),
    findElements_inv u "view" e hg (by decide) (by decide)]
  have hmapne : ((findElements none e "table").map (withNs u)).isEmpty
      = (findElements none e "table").isEmpty := by
    cases findElements none e "table" <;> rfl
  rw [hmapne, List.enum_map, List.filterMap_map, List.filterMap_map]
  have htabs : (findElements none e "table").enum.filterMap
      ((fun p => parseTable (some u) p.2 (p.1 + 1)) ∘ (Prod.map id (withNs u)))
      = (findElements none e "table").enum.filterMap
        (fun p => parseTable none p.2 (p.1 + 1)) := by
    apply filterMap_congr_mem
    intro p hp
    have hmem : p.2 ∈ findElements none e "table" :=
      List.snd_mem_of_mem_enum hp
    have hgp : goodMeta p.2 = true :=
      goodMeta_descendants e hg p.2 (mem_findElements none e "table" p.2 hmem)
    show parseTable (some u) (withNs u p.2) (p.1 + 1)
        = parseTable none p.2 (p.1 + 1)
    exact parseTable_inv u p.2 hgp (p.1 + 1)
  have hviews : (findElements none e "view").filterMap
      ((parseView (some u)) ∘ (withNs u))
      = (findElements none e "view").filterMap (parseView none) := by
    apply filterMap_congr_mem
    intro v hv
    exact parseView_inv u v
      (goodMeta_descendants e hg v (mem_findElements none e "view" v hv))
  rw [htabs, hviews]

theorem parseMetadata_inv (u : String) (t : XElem) (hg : goodMeta t = true) :
    parseMetadata (withNs u t) (some u) = parseMetadata t none := by
  rw [parseMetadata, parseMetadata]
  have hpfx : nsPrefixStr (some u) = "siard:" := rfl
  have hpfxn : nsPrefixStr none = "" := rfl
  rw [hpfx, hpfxn, string_empty_append, descendants_withNs,
    parseNodeTest_siard "schema" (by decide),
    parseNodeTest_plain "schema" (by decide) (by decide), List.filter_map]
  have hfil : (descendants t).filter
      ((testElem (some u) (.qualified "siard" "schema")) ∘ withNs u)
      = (descendants t).filter (fun c => c.tag == "schema") := by
    apply List.filter_congr
    intro c _
    exact testElem_qualified_withNs u "schema" c
  have hfn : (descendants t).filter (testElem none (.plain "schema"))
      = (descendants t).filter (fun c => c.tag == "schema") := by
    apply List.filter_congr
    intro c hc
    exact testElem_plain_nsFree "schema" c
      (goodMeta_ns_none c (goodMeta_descendants t hg c hc))
  rw [hfil, hfn, List.filterMap_map]
  apply filterMap_congr_mem
  intro s hs
  exact parseSchema_inv u s
    (goodMeta_descendants t hg s (List.mem_of_mem_filter hs))

/-- A small namespace-free metadata skeleton: one schema `s1` with one
table `t1` of one INTEGER column `id`. -/
def metaSkel : XElem :=
  .mk none "siardArchive" none none
    [.mk none "schemas" none none
      [.mk none "schema" none none
        [.mk none "n" none (some "s1") [],
         .mk none "tables" none none
           [.mk none "table" none none
             [.mk none "n" none (some "t1") [],
              .mk none "columns" none none
                [.mk none "column" none none
                  [.mk none "n" none (some "id") [],
                   .mk none "type" none (some "INTEGER") []]]]]]]]

/-- C2, counterexample: the same document written with a *prefixed-only*
namespace (its root `nsmap` has no default-namespace key, so `ns_prefix`
stays empty and the schema XPath `.//schema` matches nothing) produces a
different — empty — descriptor tree than the namespace-free style. -/
theorem C2_cex_prefixed_namespace_no_schemas :
    parseMetadata (withNs "urn:siard" metaSkel) none
      ≠ parseMetadata metaSkel none ∧
    parseMetadata (withNs "urn:siard" metaSkel) none = [] := by
  constructor
  · decide
  · rfl

/-- C2, amendment: the Metadata Model Builder produces an identical
descriptor tree for the no-namespace and default-namespace styles of the
same document, for documents in which no element carries non-empty
all-whitespace text (`goodMeta` — such text is truthy for the
`elements[0].text` check yet strips to the falsy empty string, which
makes the two styles take different fallback paths); a document using
only a *prefixed* namespace declaration instead yields zero schemas
(see the counterexample). -/
theorem C2_metadata_parse_ns_invariant (u : String) (t : XElem)
    (hg : goodMeta t = true) :
    parseMetadata (withNs u t) (some u) = parseMetadata t none :=
  parseMetadata_inv u t hg

/-- Witness for `C2_metadata_parse_ns_invariant`: the concrete skeleton
satisfies the regularity predicate and both styles parse it to the same
one-schema tree. -/
theorem C2_metadata_parse_ns_invariant_witness :
    goodMeta metaSkel = true ∧
    parseMetadata (withNs "urn:siard" metaSkel) (some "urn:siard")
      = parseMetadata metaSkel none :=
  ⟨by rfl, C2_metadata_parse_ns_invariant "urn:siard" metaSkel (by rfl)⟩
